import Mathlib

/-!
Shallow embedding of the core of the `virust-tcs` TCS pipeline
(UMI-based template consensus sequencing), together with proofs about the
claims of its specification.

Conventions used throughout this development:

* Rust `f64`/`f32` arithmetic is modelled over `ℚ`.  All decimal literals of
  the source are exactly representable as rationals; `f64::round` (round half
  away from zero) is modelled by `rustRound`, and `as usize` casts of floats
  (which saturate at zero for negative values) by `Int.toNat`.
* Byte strings (`&[u8]`, `&str`) holding nucleotide data are modelled as
  `List Char`; quality strings as `List ℕ` (the raw byte values).
* Fallible Rust functions returning `Result` are modelled with `Except`;
  Rust panics (out-of-bounds indexing, `unwrap` of `None`) are modelled by a
  dedicated constructor whenever a claim is about them.
-/

namespace VirustTcs

/-- Model of Rust `f64::round`: round half away from zero. -/
def rustRound (q : ℚ) : ℤ :=
  if 0 ≤ q then ⌊q + 1 / 2⌋ else -⌊-q + 1 / 2⌋

/-!
Model of `umi_cut_off` from `src/helper/umis.rs`.

The source selects one of three degree-6 polynomials (with literal `f64`
coefficients) according to the error-rate bucket
`(error_cutoff.unwrap_or(0.02) * 1000.0).round() as usize`, returns `2` for
`m <= 10`, applies a linear override for the high-error bucket when
`m > 8500`, and otherwise rounds the polynomial value and clamps it from
below by `2` (the `as usize` cast saturates negative values to `0` first).
-/

/-- Coefficients used for error buckets `0..=4` (in source order, highest
degree first): `[-9.59e-27, 3.27e-21, -3.05e-16, 1.2e-11, -2.19e-7, 0.004044, 2.273]`. -/
def coeffs_low_error : List ℚ :=
  [-959 / 10 ^ 29, 327 / 10 ^ 23, -305 / 10 ^ 18, 12 / 10 ^ 12,
    -219 / 10 ^ 9, 4044 / 10 ^ 6, 2273 / 10 ^ 3]

/-- Coefficients used for error buckets `5..=14`:
`[1.09e-26, 7.82e-22, -1.93e-16, 1.01e-11, -2.31e-7, 0.00645, 2.872]`. -/
def coeffs_mid_error : List ℚ :=
  [109 / 10 ^ 28, 782 / 10 ^ 24, -193 / 10 ^ 18, 101 / 10 ^ 13,
    -231 / 10 ^ 9, 645 / 10 ^ 5, 2872 / 10 ^ 3]

/-- Coefficients used for error buckets `>= 15`:
`[-1.24e-21, 3.53e-17, -3.90e-13, 2.12e-9, -6.06e-6, 1.80e-2, 3.15]`. -/
def coeffs_high_error : List ℚ :=
  [-124 / 10 ^ 23, 353 / 10 ^ 19, -39 / 10 ^ 14, 212 / 10 ^ 11,
    -606 / 10 ^ 8, 18 / 10 ^ 3, 315 / 10 ^ 2]

/-- Model of the inner `poly` helper of `umi_cut_off`:
`coeffs.iter().enumerate().map(|(i, &c)| c * (m as f64).powi((coeffs.len()-1-i) as i32)).sum()`. -/
def poly (coeffs : List ℚ) (m : ℕ) : ℚ :=
  ((coeffs.zip (List.range coeffs.length)).map
    (fun ci => ci.1 * (m : ℚ) ^ (coeffs.length - 1 - ci.2))).sum

/-- Model of the error-rate bucket `(error_cutoff.unwrap_or(0.02) * 1000.0).round() as usize`. -/
def errorBucket (error_cutoff : Option ℚ) : ℕ :=
  (rustRound ((error_cutoff.getD (1 / 50)) * 1000)).toNat

/-- Model of `umi_cut_off(m, error_cutoff)` from `src/helper/umis.rs`. -/
def umi_cut_off (m : ℕ) (error_cutoff : Option ℚ) : ℕ :=
  let b := errorBucket error_cutoff
  let coeffs := if b ≤ 4 then coeffs_low_error
    else if b ≤ 14 then coeffs_mid_error
    else coeffs_high_error
  let min_val : ℕ := 2
  let upper_bound : Option ℕ := if b ≤ 14 then none else some 8500
  if m ≤ 10 then 2
  else
    match upper_bound with
    | some upper =>
        if upper < m then (rustRound (79 / 10 ^ 4 * (m : ℚ) + 94869 / 10 ^ 4)).toNat
        else max ((rustRound (poly coeffs m)).toNat) min_val
    | none => max ((rustRound (poly coeffs m)).toNat) min_val


/-- Integer form of `rustRound` applied to the fraction `n / d` (for `d > 0`):
used to evaluate the `ℚ`-level model by machine integer arithmetic. -/
def rustRoundDiv (n : ℤ) (d : ℕ) : ℤ :=
  if 0 ≤ n then (2 * n + d) / (2 * d) else -((2 * -n + d) / (2 * d))

/-- Integer Horner form of the bucket `0..=4` polynomial, scaled by `10 ^ 29`. -/
def hornLow (m : ℕ) : ℤ :=
  ((((((-959 : ℤ) * m + 327000000) * m + -30500000000000) * m + 1200000000000000000) * m +
      -21900000000000000000000) * m + 404400000000000000000000000) * m +
    227300000000000000000000000000

/-- Integer Horner form of the bucket `5..=14` polynomial, scaled by `10 ^ 28`. -/
def hornMid (m : ℕ) : ℤ :=
  ((((((109 : ℤ) * m + 7820000) * m + -1930000000000) * m + 101000000000000000) * m +
      -2310000000000000000000) * m + 64500000000000000000000000) * m +
    28720000000000000000000000000

/-- Integer Horner form of the bucket `>= 15` polynomial, scaled by `10 ^ 23`. -/
def hornHigh (m : ℕ) : ℤ :=
  ((((((-124 : ℤ) * m + 3530000) * m + -39000000000) * m + 212000000000000) * m +
      -606000000000000000) * m + 1800000000000000000000) * m +
    315000000000000000000000

/-- Integer evaluation of the polynomial branch of `umi_cut_off` for buckets `0..=4`. -/
def cutLow (m : ℕ) : ℕ := max (rustRoundDiv (hornLow m) (10 ^ 29)).toNat 2

/-- Integer evaluation of the polynomial branch of `umi_cut_off` for buckets `5..=14`. -/
def cutMid (m : ℕ) : ℕ := max (rustRoundDiv (hornMid m) (10 ^ 28)).toNat 2

/-- Integer evaluation of the polynomial branch of `umi_cut_off` for buckets `>= 15`. -/
def cutHigh (m : ℕ) : ℕ := max (rustRoundDiv (hornHigh m) (10 ^ 23)).toNat 2

/-- Integer evaluation of the linear override branch of `umi_cut_off`
(`round(0.0079 * m + 9.4869) as usize`). -/
def cutLin (m : ℕ) : ℕ := (rustRoundDiv (79 * m + 94869) (10 ^ 4)).toNat

/-- The error-rate segment of `m` in which `umi_cut_off` evaluates its
calibration polynomial (no linear override). -/
def inPolyRange (e : ℚ) (m : ℕ) : Prop :=
  10 < m ∧ (errorBucket (some e) ≤ 14 ∨ m ≤ 8500)

/-- The segment of `m` in which `umi_cut_off` applies the linear override
(highest-error buckets only, `m > 8500`). -/
def inLinRange (e : ℚ) (m : ℕ) : Prop :=
  14 < errorBucket (some e) ∧ 8500 < m



/-!
Model of `UMI::identify` from `src/utils/umi.rs`.

The regex `N{8,}` is matched greedily, so `find_iter` yields exactly the
maximal runs of `N` of length at least 8, and `find` yields the first such
run.  The patterned regex `(N{3,4}[^N]{2,3}){2,5}N{3,4}` is modelled by an
explicit backtracking matcher with the `regex` crate's leftmost-first
semantics: earlier starting positions are preferred, and at each position
greedy quantifiers try larger counts first.
-/

/-- Maximal runs of a given character: worker carrying the current index and
the run in progress. -/
def nRunsCore : List Char → ℕ → Option (ℕ × ℕ) → List (ℕ × ℕ)
  | [], _, none => []
  | [], _, some r => [r]
  | c :: t, i, none =>
      if c = 'N' then nRunsCore t (i + 1) (some (i, 1)) else nRunsCore t (i + 1) none
  | c :: t, i, some (s0, l) =>
      if c = 'N' then nRunsCore t (i + 1) (some (s0, l + 1))
      else (s0, l) :: nRunsCore t (i + 1) none

/-- All maximal runs of `N` in `s`, as `(start, length)` pairs. -/
def nRuns (s : List Char) : List (ℕ × ℕ) := nRunsCore s 0 none

/-- The matches of the regex `N{8,}` over `s`: maximal `N`-runs of length at
least 8. -/
def longNRuns (s : List Char) : List (ℕ × ℕ) := (nRuns s).filter (fun r => 8 ≤ r.2)

/-- Model of `extract_information_index`: the 0-based positions of `N` in the
UMI block, via a counter-carrying loop exactly as in the source. -/
def extract_information_index_aux : List Char → ℕ → List ℕ
  | [], _ => []
  | c :: t, count =>
      if c = 'N' then count :: extract_information_index_aux t (count + 1)
      else extract_information_index_aux t (count + 1)

/-- Model of `extract_information_index(umi)` from `src/utils/umi.rs`. -/
def extract_information_index (umi : List Char) : List ℕ :=
  extract_information_index_aux umi 0

/-- Every character of `l` is `N`. -/
def allN (l : List Char) : Bool := l.all (fun c => c = 'N')

/-- No character of `l` is `N` (the regex character class `[^N]`). -/
def allNonN (l : List Char) : Bool := l.all (fun c => c ≠ 'N')

/-- Match the final `N{3,4}` of the patterned-UMI regex at the head of `l`,
greedily (4 before 3); returns the matched length. -/
def patFinal (l : List Char) : Option ℕ :=
  if 4 ≤ l.length ∧ allN (l.take 4) = true then some 4
  else if 3 ≤ l.length ∧ allN (l.take 3) = true then some 3
  else none

/-- Backtracking matcher for `(N{3,4}[^N]{2,3}){2,5}N{3,4}` anchored at the
head of `l`.  `remMin` repetitions of the group are still required, at most
`remMax` more are allowed.  Candidate group shapes are tried in the regex
engine's priority order `(4,3), (4,2), (3,3), (3,2)` (outer quantifier greedy
first), and one more group repetition is preferred over finishing.  Returns
the total matched length (of the leftmost-first match). -/
def patRest : ℕ → ℕ → List Char → Option ℕ
  | remMin, 0, l => if remMin = 0 then patFinal l else none
  | remMin, rm + 1, l =>
    let t43 := if 7 ≤ l.length ∧ allN (l.take 4) = true ∧ allNonN ((l.drop 4).take 3) = true
      then (patRest (remMin - 1) rm (l.drop 7)).map (fun d => d + 7) else none
    let t42 := if 6 ≤ l.length ∧ allN (l.take 4) = true ∧ allNonN ((l.drop 4).take 2) = true
      then (patRest (remMin - 1) rm (l.drop 6)).map (fun d => d + 6) else none
    let t33 := if 6 ≤ l.length ∧ allN (l.take 3) = true ∧ allNonN ((l.drop 3).take 3) = true
      then (patRest (remMin - 1) rm (l.drop 6)).map (fun d => d + 6) else none
    let t32 := if 5 ≤ l.length ∧ allN (l.take 3) = true ∧ allNonN ((l.drop 3).take 2) = true
      then (patRest (remMin - 1) rm (l.drop 5)).map (fun d => d + 5) else none
    match (((t43.orElse (fun _ => t42)).orElse (fun _ => t33)).orElse (fun _ => t32)) with
    | some d => some d
    | none => if remMin = 0 then patFinal l else none

/-- Leftmost-first `find` for the patterned-UMI regex: try each start position
from the left, returning `(start, length)` of the first match. -/
def patFindAux : List Char → ℕ → Option (ℕ × ℕ)
  | [], i => match patRest 2 5 [] with | some d => some (i, d) | none => none
  | l@(_ :: t), i =>
      match patRest 2 5 l with
      | some d => some (i, d)
      | none => patFindAux t (i + 1)

/-- The first match of `(N{3,4}[^N]{2,3}){2,5}N{3,4}` in `s`, if any. -/
def patFind (s : List Char) : Option (ℕ × ℕ) := patFindAux s 0

deriving instance DecidableEq for Except

/-- Model of the source's `UMIType`. -/
inductive UMIType
  | UMI
  | UMIWithPattern
deriving DecidableEq, Repr

/-- Model of the source's `UMI` struct. -/
structure UMI where
  umi_type : UMIType
  umi_block : List Char
  information_index : List ℕ
  umi_information_block : List Char
deriving DecidableEq, Repr

/-- Model of `UMI::identify` from `src/utils/umi.rs`.  Returns the identified
UMI together with the half-open index range it occupies in the primer.
`umi_block.chars().nth(i).unwrap()` is modelled with `getD` (the indices
produced by `extract_information_index` are always in range). -/
def identify (seq : List Char) : Except String (UMI × ℕ × ℕ) :=
  match longNRuns seq with
  | [(st, len)] =>
      let umi_block := (seq.drop st).take len
      Except.ok ({ umi_type := UMIType.UMI,
                   umi_block := umi_block,
                   information_index := extract_information_index umi_block,
                   umi_information_block := umi_block }, st, st + len)
  | [] =>
      match patFind seq with
      | some (st, len) =>
          let umi_block := (seq.drop st).take len
          let information_index := extract_information_index umi_block
          Except.ok ({ umi_type := UMIType.UMIWithPattern,
                       umi_block := umi_block,
                       information_index := information_index,
                       umi_information_block :=
                         information_index.map (fun i => umi_block.getD i ' ') },
            st, st + len)
      | none => Except.error "No UMI found"
  | _ => Except.error "More than one Regular UMI found, and they do not fit the patterned UMI format. Please check your input."

/-- Model of the `virust_locator::Locator` fields consumed by the core. -/
structure Locator where
  query_aligned_string : List Char
  ref_aligned_string : List Char
  ref_start : ℕ
  ref_end : ℕ
  indel : Bool
  percent_identity : ℚ

/-- The left loop of `trim_sequence_from_locator`: walk the reference-aligned
string, counting gap-inclusive positions `g1`, until the consumed reference
coordinate `l1` reaches `start` (gaps do not advance `l1`). -/
def trimLeftLoop : List Char → ℕ → ℕ → ℕ → ℕ
  | [], _, _, g1 => g1
  | c :: t, l1, start, g1 =>
      if l1 = start then g1
      else trimLeftLoop t (if c ≠ '-' then l1 + 1 else l1) start (g1 + 1)

/-- The right loop of `trim_sequence_from_locator`, over the reversed
reference-aligned string, decrementing `l2` from `ref_end` until it reaches the
trim end.  `l2` is an integer here: the source uses `usize`, which wraps on
underflow; a wrapped value can never equal a valid coordinate again, and
neither can a negative one, so the two models agree on all representable
inputs. -/
def trimRightLoop : List Char → ℤ → ℕ → ℕ → ℕ
  | [], _, _, g2 => g2
  | c :: t, l2, fin, g2 =>
      if l2 = (fin : ℤ) then g2
      else trimRightLoop t (if c ≠ '-' then l2 - 1 else l2) fin (g2 + 1)

/-- Model of `trim_sequence_from_locator` from `src/helper/tcs_helper/utils.rs`.
On success it returns the gap-stripped trimmed sequence and the endpoints of
`trimmed_range` (the index range into the ungapped query meant for reusing its
quality vector). -/
def trim_sequence_from_locator (loc : Locator) (start fin : ℕ) :
    Except String (List Char × ℕ × ℕ) :=
  let query_aligned := loc.query_aligned_string
  let ref_aligned := loc.ref_aligned_string
  let g1 := trimLeftLoop ref_aligned loc.ref_start start 0
  let g2 := trimRightLoop ref_aligned.reverse (loc.ref_end : ℤ) fin 0
  if query_aligned.length ≤ g1 ∨ query_aligned.length ≤ g2 ∨
      query_aligned.length < g1 + g2 then
    Except.error "Gaps exceed the length of the aligned query sequence."
  else
    let trimmed_seq := ((query_aligned.drop g1).take (query_aligned.length - g2 - g1)).filter
      (fun c => c ≠ '-')
    let pfx := ((query_aligned.take g1).filter (fun c => c ≠ '-')).length
    let sfx := ((query_aligned.drop (query_aligned.length - g2)).filter
      (fun c => c ≠ '-')).length
    Except.ok (trimmed_seq, pfx, query_aligned.length - sfx)

/-!
Model of `src/helper/params.rs`.  `helper/umi.rs` itself is not among the
source files, but `src/utils/umi.rs` defines the identical `UMI::identify`
API (with matching doctests), so `identify` above stands for it.  Rust
`Range<u32>` values are modelled as pairs `(start, end)`.
-/

/-- Model of the source's `ParamsValidationError`. -/
inductive ParamsValidationError
  | InvalidPlatformErrorRate (rate : ℚ)
  | ShortBiologicalPrimer
  | EmptySequence
  | InValidNucleotideWord (s : List Char)
  | InvalidEndJoinOption (o : ℕ)
  | InvalidReferenceGenomeCoordinates (s e : ℕ)
  | TCSQCReferenceCoordinatesNotProvided
  | TrimmingCoordinatesOutsideQCReference
  | TCSTrimReferenceCoordinatesNotProvided
  | UnsupportedDRParamsVersion (v : String) (supported : String)
  | JsonParseError (msg : String)
deriving DecidableEq, Repr

/-- Errors of `Params::validate`, which boxes either a `ParamsValidationError`
or a plain string error coming from `UMI::identify`. -/
inductive ValidateError
  | params (e : ParamsValidationError)
  | other (msg : String)
deriving DecidableEq, Repr

/-- Model of the source's `RegionParams` (deserialized per-region input). -/
structure RegionParams where
  region : String
  forward : List Char
  cdna : List Char
  majority : ℚ
  end_join : Bool
  end_join_option : ℕ
  overlap : ℕ
  tcs_qc : Bool
  ref_genome : String
  ref_start : ℕ
  ref_start_lower : Option ℕ
  ref_end : ℕ
  ref_end_lower : Option ℕ
  indel : Bool
  trim : Bool
  trim_ref : Option String
  trim_ref_start : Option ℕ
  trim_ref_end : Option ℕ

/-- Model of the source's `Params`. -/
structure Params where
  platform_error_rate : ℚ
  platform_format : ℕ
  email : Option String
  primer_pairs : List RegionParams

/-- Model of `QcConfig`; `stop` stands for the source's `end` field
(a Lean keyword). -/
structure QcConfig where
  reference : String
  start : Option (ℕ × ℕ)
  stop : Option (ℕ × ℕ)
  indel : Bool
deriving DecidableEq, Repr

/-- Model of `TrimConfig`; `stop` stands for the source's `end` field. -/
structure TrimConfig where
  reference : String
  start : ℕ
  stop : ℕ
deriving DecidableEq, Repr

/-- Model of `ForwardMatching`. -/
structure ForwardMatching where
  forward : List Char
  leading_n_number : ℕ
  bio_forward : List Char
deriving DecidableEq, Repr

/-- Model of `CDNAMatching`. -/
structure CDNAMatching where
  cdna : List Char
  umi : UMI
  bio_cdna : List Char
deriving DecidableEq, Repr

/-- Model of `ValidatedRegionParams`. -/
structure ValidatedRegionParams where
  platform_error_rate : ℚ
  platform_format : ℕ
  region : String
  forward_matching : ForwardMatching
  cdna_matching : CDNAMatching
  majority : ℚ
  end_join : Bool
  end_join_option : ℕ
  overlap : ℕ
  tcs_qc : Bool
  qc_config : Option QcConfig
  trim : Bool
  trim_config : Option TrimConfig
deriving DecidableEq

/-- Model of `ValidatedParams`. -/
structure ValidatedParams where
  primer_pairs : List ValidatedRegionParams
deriving DecidableEq

/-- The characters accepted by `bio::alphabets::dna::iupac_alphabet()`
(IUPAC nucleotide codes, both cases).  Only used as a gate by
`validate_nt_words`; none of the claims depend on the exotic letters. -/
def iupacAlphabetChars : List Char := "ACGTURYSWKMBDHVNacgturyswkmbdhvn".data

/-- Model of `validate_nt_words` from `src/helper/params.rs`. -/
def validate_nt_words (s : List Char) : Except ParamsValidationError Unit :=
  if s = [] then Except.error ParamsValidationError.EmptySequence
  else if s.all (fun c => iupacAlphabetChars.contains c) then Except.ok ()
  else Except.error (ParamsValidationError.InValidNucleotideWord s)

/-- Model of `validate_forward_primer`: the regex `(N{3,})(.*)` captures the
first maximal run of at least 3 `N`s (primers contain no line breaks, so `.*`
reaches the end of the string); without a match the whole primer is the
biological part with no leading `N`s. -/
def validate_forward_primer (s : List Char) : Except ParamsValidationError ForwardMatching :=
  match validate_nt_words s with
  | Except.error e => Except.error e
  | Except.ok _ =>
      let split : ℕ × List Char :=
        match (nRuns s).filter (fun r => 3 ≤ r.2) with
        | [] => (0, s)
        | (st, len) :: _ => (len, s.drop (st + len))
      if split.2.length < 6 then Except.error ParamsValidationError.ShortBiologicalPrimer
      else Except.ok { forward := s, leading_n_number := split.1, bio_forward := split.2 }

/-- Model of `validate_cdna_primer` from `src/helper/params.rs`. -/
def validate_cdna_primer (s : List Char) : Except ValidateError CDNAMatching :=
  match validate_nt_words s with
  | Except.error e => Except.error (ValidateError.params e)
  | Except.ok _ =>
      match identify s with
      | Except.error msg => Except.error (ValidateError.other msg)
      | Except.ok (umi, _, rend) =>
          if s.length < rend then
            Except.error (ValidateError.params ParamsValidationError.ShortBiologicalPrimer)
          else
            let bio_cdna := s.drop rend
            if bio_cdna.length < 6 then
              Except.error (ValidateError.params ParamsValidationError.ShortBiologicalPrimer)
            else Except.ok { cdna := s, umi := umi, bio_cdna := bio_cdna }

/-- Model of `process_qc_ref_number`. -/
def process_qc_ref_number (n1 : ℕ) (n2 : Option ℕ) : Option (ℕ × ℕ) :=
  if n1 = 0 then none
  else
    match n2 with
    | some m => if n1 < m then some (n1, m) else none
    | none => some (n1, n1 + 1)

/-- The QC-coordinate part of `Params::validate` for one region: returns the
chosen reference name and the processed `ref_start`/`ref_end` ranges. -/
def qc_section (r : RegionParams) :
    Except ValidateError (String × Option (ℕ × ℕ) × Option (ℕ × ℕ)) :=
  if r.tcs_qc then
    let ref_genome := if r.ref_genome = "HXB2" ∨ r.ref_genome = "SIVmm239"
      then r.ref_genome else "HXB2"
    let ref_start := process_qc_ref_number r.ref_start r.ref_start_lower
    let ref_end := process_qc_ref_number r.ref_end r.ref_end_lower
    match ref_start, ref_end with
    | some s, some e =>
        if e.1 ≤ s.2 then
          Except.error (ValidateError.params
            (ParamsValidationError.InvalidReferenceGenomeCoordinates s.2 e.1))
        else Except.ok (ref_genome, some s, some e)
    | none, none =>
        Except.error (ValidateError.params
          ParamsValidationError.TCSQCReferenceCoordinatesNotProvided)
    | rs, re => Except.ok (ref_genome, rs, re)
  else Except.ok ("", none, none)

/-- The trim-coordinate part of `Params::validate` for one region, taking the
processed QC ranges.  Note the containment test compares only
`trim_ref_start` against the QC ranges (`start.end <= trim_ref_start` and
`end.start >= trim_ref_start`), exactly as the source does. -/
def trim_section (r : RegionParams) (rs re : Option (ℕ × ℕ)) :
    Except ValidateError (String × ℕ × ℕ) :=
  if r.trim then
    let trim_ref := if r.ref_genome = "HXB2" ∨ r.ref_genome = "SIVmm239"
      then r.ref_genome else "HXB2"
    match r.trim_ref_start, r.trim_ref_end with
    | some ts, some te =>
        if te ≤ ts then
          Except.error (ValidateError.params
            (ParamsValidationError.InvalidReferenceGenomeCoordinates ts te))
        else
          match rs, re with
          | some s, some e =>
              if s.2 ≤ ts ∧ ts ≤ e.1 then Except.ok (trim_ref, ts, te)
              else Except.error (ValidateError.params
                ParamsValidationError.TrimmingCoordinatesOutsideQCReference)
          | _, _ =>
              Except.error (ValidateError.params
                ParamsValidationError.TrimmingCoordinatesOutsideQCReference)
    | _, _ =>
        Except.error (ValidateError.params
          ParamsValidationError.TCSTrimReferenceCoordinatesNotProvided)
  else Except.ok ("", 0, 0)

/-- Per-region body of `Params::validate`. -/
def validate_region (per : ℚ) (pf : ℕ) (r : RegionParams) :
    Except ValidateError ValidatedRegionParams :=
  match validate_forward_primer r.forward with
  | Except.error e => Except.error (ValidateError.params e)
  | Except.ok fm =>
      match validate_cdna_primer r.cdna with
      | Except.error e => Except.error e
      | Except.ok cm =>
          if 1 ≤ r.end_join_option ∧ r.end_join_option ≤ 4 then
            match qc_section r with
            | Except.error e => Except.error e
            | Except.ok (g, rs, re) =>
                match trim_section r rs re with
                | Except.error e => Except.error e
                | Except.ok (tg, ts, te) =>
                    Except.ok { platform_error_rate := per,
                                platform_format := pf,
                                region := r.region,
                                forward_matching := fm,
                                cdna_matching := cm,
                                majority := r.majority,
                                end_join := r.end_join,
                                end_join_option := r.end_join_option,
                                overlap := r.overlap,
                                tcs_qc := r.tcs_qc,
                                qc_config := if r.tcs_qc then
                                    some { reference := g, start := rs, stop := re,
                                           indel := r.indel }
                                  else none,
                                trim := r.trim,
                                trim_config := if r.trim then
                                    some { reference := tg, start := ts, stop := te }
                                  else none }
          else
            Except.error (ValidateError.params
              (ParamsValidationError.InvalidEndJoinOption r.end_join_option))

/-- The region loop of `Params::validate` (early return on the first error). -/
def validate_regions (per : ℚ) (pf : ℕ) :
    List RegionParams → Except ValidateError (List ValidatedRegionParams)
  | [] => Except.ok []
  | r :: rest =>
      match validate_region per pf r with
      | Except.error e => Except.error e
      | Except.ok v =>
          match validate_regions per pf rest with
          | Except.error e => Except.error e
          | Except.ok vs => Except.ok (v :: vs)

/-- Model of `Params::validate` from `src/helper/params.rs`. -/
def Params.validate (p : Params) : Except ValidateError ValidatedParams :=
  if 1 / 10 < p.platform_error_rate ∨ p.platform_error_rate < 0 then
    Except.error (ValidateError.params
      (ParamsValidationError.InvalidPlatformErrorRate p.platform_error_rate))
  else
    match validate_regions p.platform_error_rate p.platform_format p.primer_pairs with
    | Except.error e => Except.error e
    | Except.ok l => Except.ok { primer_pairs := l }

/-- Region used by the C1 counterexample: valid primers, trimming enabled with
well-formed coordinates, QC disabled. -/
def c1_region : RegionParams :=
  { region := "RT", forward := "AAANNNNNGGGGGG".data, cdna := "CCCNNNNNNNNNNNNGGGGGGG".data,
    majority := 1 / 2, end_join := true, end_join_option := 2, overlap := 30,
    tcs_qc := false, ref_genome := "HXB2", ref_start := 0, ref_start_lower := none,
    ref_end := 0, ref_end_lower := none, indel := true, trim := true,
    trim_ref := some "HXB2", trim_ref_start := some 50, trim_ref_end := some 250 }

/-- Parameter set used by the C1 counterexample. -/
def c1_params : Params :=
  { platform_error_rate := 0, platform_format := 300, email := none,
    primer_pairs := [c1_region] }

/-!
Model of `src/helper/end_joining.rs`.  Sequences are `List Char`, qualities
`List ℕ`.  Rust's direct slice indexing (`r1[i]`, panicking out of bounds) is
modelled by `getD` with a placeholder default; all uses below stay in range.
-/

/-- Model of `bio::io::fasta::Record`. -/
structure FastaRecord where
  id : String
  desc : Option String
  seq : List Char
deriving DecidableEq, Repr

/-- Model of `bio::io::fastq::Record`. -/
structure FastqRecord where
  id : String
  desc : Option String
  seq : List Char
  qual : List ℕ
deriving DecidableEq, Repr

/-- Model of `bio`'s `fasta::Record::is_empty`. -/
def FastaRecord.is_empty (r : FastaRecord) : Bool :=
  r.id = "" && r.desc = none && r.seq = []

/-- Model of `bio`'s `fastq::Record::is_empty`. -/
def FastqRecord.is_empty (r : FastqRecord) : Bool :=
  r.id = "" && r.desc = none && r.seq = [] && r.qual = []

/-- `MIN_OVERLAP` from `src/helper/end_joining.rs`. -/
def MIN_OVERLAP : ℕ := 10

/-- `ERROR_RATE_FOR_ENDJOINING` (= 0.02) from `src/helper/end_joining.rs`. -/
def ERROR_RATE_FOR_ENDJOINING : ℚ := 1 / 50

/-- Model of the source's `OverlapResult`. -/
structure OverlapResult where
  offset : ℤ
  overlap_len : ℕ
  mismatches : ℕ
deriving DecidableEq, Repr

/-- Model of `OverlapResult::from_simple_overlap`. -/
def from_simple_overlap (len1 len2 overlap_len : ℕ) : OverlapResult :=
  let ol := min (min overlap_len len1) len2
  { offset := ((len1 - ol : ℕ) : ℤ), overlap_len := ol, mismatches := 0 }

/-- Hamming mismatches between two equal-length byte slices
(`zip` + `filter` + `count` as in the source). -/
def countMismatches (a b : List Char) : ℕ :=
  ((a.zip b).filter (fun p => p.1 ≠ p.2)).length

/-- One iteration of the offset loop of `find_best_overlap`. -/
def fboStep (r1 r2 : List Char) (min_overlap : ℕ) (error_rate : ℚ)
    (best : Option OverlapResult) (offset : ℤ) : Option OverlapResult :=
  let len1 : ℤ := r1.length
  let len2 : ℤ := r2.length
  let start1 := (max offset 0).toNat
  let start2 := (max (-offset) 0).toNat
  let end1 := (min len1 (offset + len2)).toNat
  let overlap := end1 - start1
  if min_overlap ≤ overlap ∧ start2 + overlap ≤ r2.length ∧ start1 + overlap ≤ r1.length then
    let mismatches := countMismatches ((r1.drop start1).take (end1 - start1))
      ((r2.drop start2).take overlap)
    if (mismatches : ℚ) ≤ (overlap : ℚ) * error_rate then
      match best with
      | none => some { offset := offset, overlap_len := overlap, mismatches := mismatches }
      | some b =>
          if b.overlap_len < overlap ∨ (overlap = b.overlap_len ∧ mismatches < b.mismatches)
          then some { offset := offset, overlap_len := overlap, mismatches := mismatches }
          else best
    else best
  else best

/-- The inclusive integer range `lo..=hi` as a list. -/
def offsetList (lo hi : ℤ) : List ℤ :=
  (List.range (hi + 1 - lo).toNat).map (fun i => lo + (i : ℕ))

/-- Model of `find_best_overlap` from `src/helper/end_joining.rs`. -/
def find_best_overlap (r1 r2 : List Char) (min_overlap : ℕ) (error_rate : ℚ) :
    OverlapResult :=
  let len1 : ℤ := r1.length
  let len2 : ℤ := r2.length
  let half_len2 := len2 / 2
  let raw_min_offset := -(len2 - (min_overlap : ℤ))
  let min_offset := max raw_min_offset (-half_len2)
  let max_offset := len1 - (min_overlap : ℤ)
  match (offsetList min_offset max_offset).foldl (fboStep r1 r2 min_overlap error_rate) none
  with
  | some b => b
  | none => { offset := len1, overlap_len := 0, mismatches := 0 }

/-- Model of the source's `EndJoiningResult`. -/
structure EndJoiningResult where
  seq : List Char
  quality : Option (List ℕ)
deriving DecidableEq, Repr

/-- Model of `join_with_overlap` from `src/helper/end_joining.rs`. -/
def join_with_overlap (r1 : List Char) (r1_qual : Option (List ℕ)) (r2 : List Char)
    (r2_qual : Option (List ℕ)) (overlap : OverlapResult) : EndJoiningResult :=
  let offset := overlap.offset
  let overlap_len := overlap.overlap_len
  let prefix_pair : List Char × Option (List ℕ) :=
    if offset < 0 then
      let plen := (-offset).toNat
      (r2.take plen, r2_qual.map (fun q => q.take plen))
    else
      let plen := offset.toNat
      (r1.take plen, r1_qual.map (fun q => q.take plen))
  let r1_overlap_start := if offset < 0 then 0 else offset.toNat
  let r2_overlap_start := if offset < 0 then (-offset).toNat else 0
  let overlap_seq := (List.range overlap_len).map (fun i =>
    let base1 := r1.getD (r1_overlap_start + i) '?'
    let base2 := r2.getD (r2_overlap_start + i) '?'
    if base1 = base2 then base1
    else
      match r1_qual, r2_qual with
      | some q1, some q2 =>
          if q2.getD (r2_overlap_start + i) 0 ≤ q1.getD (r1_overlap_start + i) 0
          then base1 else base2
      | _, _ => 'N')
  let overlap_qual : Option (List ℕ) :=
    match r1_qual, r2_qual with
    | some q1, some q2 =>
        some ((List.range overlap_len).map (fun i =>
          max (q1.getD (r1_overlap_start + i) 0) (q2.getD (r2_overlap_start + i) 0)))
    | _, _ => none
  let r1_overlap_end := r1_overlap_start + overlap_len
  let r2_overlap_end := r2_overlap_start + overlap_len
  let suffix_pair : List Char × Option (List ℕ) :=
    if r1_overlap_end < r1.length then
      (r1.drop r1_overlap_end, r1_qual.map (fun q => q.drop r1_overlap_end))
    else if r2_overlap_end < r2.length then
      (r2.drop r2_overlap_end, r2_qual.map (fun q => q.drop r2_overlap_end))
    else ([], none)
  { seq := prefix_pair.1 ++ overlap_seq ++ suffix_pair.1,
    quality :=
      match prefix_pair.2, overlap_qual, suffix_pair.2 with
      | some a, some b, some c => some (a ++ b ++ c)
      | _, _, _ => none }

/-- Model of the source's `EndJoiningStrategy`. -/
inductive EndJoiningStrategy
  | Simple
  | Overlap (len : ℕ)
  | UnknownOverlap

/-- Model of the source's `EndJoiningInput`. -/
inductive EndJoiningInput
  | Fasta (r1 r2 : FastaRecord)
  | Fastq (r1 r2 : FastqRecord)

/-- Model of `EndJoiningInput::validate_records`. -/
def EndJoiningInput.validate_records : EndJoiningInput → Except String Unit
  | EndJoiningInput.Fasta r1 r2 =>
      if r1.is_empty || r2.is_empty then Except.error "Fasta records cannot be empty"
      else Except.ok ()
  | EndJoiningInput.Fastq r1 r2 =>
      if r1.is_empty || r2.is_empty then Except.error "Fastq records cannot be empty"
      else Except.ok ()

/-- Model of `end_joining` from `src/helper/end_joining.rs`. -/
def end_joining (input : EndJoiningInput) (strategy : EndJoiningStrategy) :
    Except String EndJoiningResult :=
  match input.validate_records with
  | Except.error e => Except.error e
  | Except.ok _ =>
      let data : List Char × List Char × Option (List ℕ) × Option (List ℕ) :=
        match input with
        | EndJoiningInput.Fasta a b => (a.seq, b.seq, none, none)
        | EndJoiningInput.Fastq a b => (a.seq, b.seq, some a.qual, some b.qual)
      let (r1, r2, q1, q2) := data
      let overlap :=
        match strategy with
        | EndJoiningStrategy.Simple => from_simple_overlap r1.length r2.length 0
        | EndJoiningStrategy.Overlap l => from_simple_overlap r1.length r2.length l
        | EndJoiningStrategy.UnknownOverlap =>
            find_best_overlap r1 r2 MIN_OVERLAP ERROR_RATE_FOR_ENDJOINING
      Except.ok (join_with_overlap r1 q1 r2 q2 overlap)

/-- Record used by the C6 counterexample (length 4, below `MIN_OVERLAP`). -/
def c6_record : FastqRecord :=
  { id := "r", desc := none, seq := "ACGT".data, qual := [65, 65, 65, 65] }

/-- The inductive invariant of the offset loop before offset `0` is reached:
any candidate found so far has overlap strictly below the full length. -/
def Pbelow (n : ℕ) (b : Option OverlapResult) : Prop :=
  ∀ x, b = some x → x.overlap_len < n

/-- Record used by the C6 witness (length 13 ≥ `MIN_OVERLAP`). -/
def c6w_record : FastqRecord :=
  { id := "r", desc := none, seq := "ACGTACGTTACGT".data,
    qual := List.replicate 13 70 }

/-!
Model of `src/helper/consensus.rs`.

The `Weighted` strategy of the source computes per-base weights with the
transcendental `logistic_quality_prob(q, k, q0)`.  The model abstracts the
logistic curve by the rational-valued weight function `w : ℕ → ℚ` it induces
on Phred scores (the claims proved below only use its positivity).  Rust
`HashMap` iteration order is unspecified; maps accumulated by insertion are
modelled as association lists in insertion order.
-/

/-- Model of the source's `ConsensusStrategy`.  `Weighted` carries the weight
function induced by `logistic_quality_prob` with the strategy's `k`/`q0`. -/
inductive ConsensusStrategy where
  | Weighted (w : ℕ → ℚ)
  | Supermajority (cutoff : ℚ)
  | SimpleMajority

/-- Whether a strategy is the `Weighted` variant. -/
def ConsensusStrategy.isWeighted : ConsensusStrategy → Bool
  | ConsensusStrategy.Weighted _ => true
  | _ => false

/-- Model of the source's `ConsensusInput`. -/
inductive ConsensusInput where
  | Fastq (records : List FastqRecord)
  | Fasta (records : List FastaRecord)

/-- Model of the source's `ConsensusResult` (`qual` is the list of raw
quality byte values). -/
structure ConsensusResult where
  seq : List Char
  qual : Option (List ℕ)
deriving DecidableEq, Repr

/-- Model of the source's `ConsensusError`. -/
inductive ConsensusError where
  | InvalidRecordsNumber (n : ℕ)
  | InvalidSequenceLength
  | MissingQualityScores
deriving DecidableEq, Repr

/-- Result of `consensus`; `panicked` models the out-of-bounds indexing
`r[i]` on a quality row shorter than the sequence length. -/
inductive ConsensusOutcome where
  | ok (res : ConsensusResult)
  | err (e : ConsensusError)
  | panicked

/-- Accumulate `w` onto the entry of `b` in an association list
(`*base_weights.entry(base).or_insert(0.0) += weight`). -/
def addWeight (l : List (Char × ℚ)) (b : Char) (w : ℚ) : List (Char × ℚ) :=
  match l with
  | [] => [(b, w)]
  | (c, x) :: t => if c = b then (c, x + w) :: t else (c, x) :: addWeight t b w

/-- Increment the count of `k` in an association list
(`*counts.entry(base).or_insert(0) += 1`). -/
def addCount {α : Type} [DecidableEq α] (l : List (α × ℕ)) (k : α) : List (α × ℕ) :=
  match l with
  | [] => [(k, 1)]
  | (a, n) :: t => if a = k then (a, n + 1) :: t else (a, n) :: addCount t k

/-- Counts of the elements of a list, in insertion order (itertools
`.counts()`, with `HashMap` iteration modelled by insertion order). -/
def countsList {α : Type} [DecidableEq α] (xs : List α) : List (α × ℕ) :=
  xs.foldl addCount []

/-- Exact rational form of `(-10.0 * p.log10()).min(60.0).round()` for
`0 < p ≤ 1`: the cap applies iff `p ≤ 10 ^ (-6 : ℤ)`, and otherwise
round-half-away-from-zero returns the least `m` with
`-10 * log10 p < m + 1/2`, i.e. `1 < p ^ 20 * 10 ^ (2 * m + 1)`. -/
def roundNegLog (p : ℚ) : ℕ :=
  if p ≤ 1 / 10 ^ 6 then 60
  else ((List.range 61).find? (fun m => 1 < p ^ 20 * 10 ^ (2 * m + 1))).getD 60

/-- Model of `consensus_base_column_with_quality` from
`src/helper/consensus.rs`.  Weights are accumulated per base, the maximum
weight and the bases within `1e-6` of it are found, and for a unique top
base the Phred-scaled consensus quality is computed from
`p_error = 1 - max_weight / total_weight` (floored at `1e-10`, capped at
Phred 60) and encoded as Phred+33. -/
def consensus_base_column_with_quality (w : ℕ → ℚ) (bases : List Char) (quals : List ℕ) :
    Option (Char × ℕ) :=
  let bw := (bases.zip quals).foldl (fun acc p => addWeight acc p.1 (w (p.2 - 33))) []
  match (bw.map Prod.snd).max? with
  | none => some ('N', 33)
  | some mw =>
      let top := (bw.filter (fun p => |p.2 - mw| < 1 / 10 ^ 6)).map Prod.fst
      if top.length = 1 then
        let total := (bw.map Prod.snd).sum
        let p_error := if 0 < total then 1 - mw / total else 1
        let p_error := max p_error (1 / 10 ^ 10)
        some (top.headD 'N', roundNegLog p_error + 33)
      else some ('N', 33)

/-- Model of `consensus_base_supermajority`. -/
def consensus_base_supermajority (bases : List Char) (cutoff : ℚ) : Char :=
  let counts := countsList bases
  match counts.find? (fun p => cutoff < (p.2 : ℚ) / (bases.length : ℚ)) with
  | some p => p.1
  | none => 'N'

/-- Model of `consensus_base_simply_majority`. -/
def consensus_base_simply_majority (bases : List Char) : Char :=
  let counts := countsList bases
  let max_count := (counts.map Prod.snd).foldl max 0
  let top := (counts.filter (fun p => p.2 = max_count)).map Prod.fst
  if top.length = 1 then top.headD 'N' else 'N'

/-- Model of the unified `consensus` function from `src/helper/consensus.rs`. -/
def consensus (strategy : ConsensusStrategy) (input : ConsensusInput) : ConsensusOutcome :=
  let seqs : List (List Char) :=
    match input with
    | ConsensusInput.Fastq rs => rs.map (fun r => r.seq)
    | ConsensusInput.Fasta rs => rs.map (fun r => r.seq)
  let quals_opt : Option (List (List ℕ)) :=
    match input with
    | ConsensusInput.Fastq rs => some (rs.map (fun r => r.qual))
    | ConsensusInput.Fasta _ => none
  let n_records := seqs.length
  if n_records < 2 then ConsensusOutcome.err (ConsensusError.InvalidRecordsNumber n_records)
  else
    let seq_len := (seqs.headD []).length
    if ¬ (seqs.all (fun r => r.length = seq_len)) then
      ConsensusOutcome.err ConsensusError.InvalidSequenceLength
    else
      match strategy with
      | ConsensusStrategy.Weighted w =>
          match quals_opt with
          | none =>
              if seq_len = 0 then ConsensusOutcome.ok { seq := [], qual := some [] }
              else ConsensusOutcome.err ConsensusError.MissingQualityScores
          | some quals =>
              if ¬ (quals.all (fun q => seq_len ≤ q.length)) then ConsensusOutcome.panicked
              else
                let cols := (List.range seq_len).map (fun i =>
                  (consensus_base_column_with_quality w
                      (seqs.map (fun r => r.getD i ' '))
                      (quals.map (fun q => q.getD i 0))).getD ('N', 33))
                ConsensusOutcome.ok
                  { seq := cols.map Prod.fst, qual := some (cols.map Prod.snd) }
      | ConsensusStrategy.Supermajority cutoff =>
          let cutoff := min (max cutoff (1 / 2)) 1
          ConsensusOutcome.ok
            { seq := (List.range seq_len).map (fun i =>
                consensus_base_supermajority (seqs.map (fun r => r.getD i ' ')) cutoff),
              qual := none }
      | ConsensusStrategy.SimpleMajority =>
          ConsensusOutcome.ok
            { seq := (List.range seq_len).map (fun i =>
                consensus_base_simply_majority (seqs.map (fun r => r.getD i ' '))),
              qual := none }

/-!
Model of `src/helper/tcs_helper/filter_r1_r2.rs`,
`src/helper/tcs_helper/utils.rs` (IUPAC helpers, `get_range`,
`reverse_complement`) and of `src/helper/tcs_helper/tcs_consensus.rs`
(`build_from_filtered_pairs`) together with
`UMIInformationBlocks::find_umi_family_by_error_cutoff` from
`src/helper/umis.rs`.

Rust panics (indexing an empty `primer_pairs`, the `platform_format - 1`
usize underflow, the `&r1_seq[4..]` slice on reads shorter than four bases,
`Option::unwrap` on a missing consensus quality) are modelled by dedicated
`panicked` constructors.  `HashMap`s are modelled as association lists in
insertion order.
-/

/-- The `TcsError` variants reachable from the read-pair filter, plus
`StringError` for the plain string errors produced by `get_range`
(`Box<dyn Error>` in the source). -/
inductive TcsError where
  | InvalidR1Header (s : String)
  | InvalidR2Header (s : String)
  | EmptyFastqRecord
  | R1R2HeaderMismatch (a b : String)
  | InvalidR1Record (s : String)
  | InvalidR2Record (s : String)
  | InvalidReadLength (pf l1 l2 : ℕ)
  | UnexpectedError (s : String)
  | StringError (s : String)
deriving DecidableEq, Repr

/-- The `thiserror` display strings of the modelled `TcsError` variants. -/
def tcsErrorMessage : TcsError → String
  | TcsError.InvalidR1Header s => "Invalid R1 header: " ++ s
  | TcsError.InvalidR2Header s => "Invalid R2 header: " ++ s
  | TcsError.EmptyFastqRecord => "Empty fastq record"
  | TcsError.R1R2HeaderMismatch a b => "R1 R2 header mismatch: R1: " ++ a ++ ", R2: " ++ b
  | TcsError.InvalidR1Record s => "Invalid R1 record: " ++ s
  | TcsError.InvalidR2Record s => "Invalid R2 record: " ++ s
  | TcsError.InvalidReadLength pf l1 l2 =>
      "Invalid read length: Platform Format: " ++ toString pf ++
        ", should be equal or less to Read 1 Length: " ++ toString l1 ++
        " and Read 2: " ++ toString l2
  | TcsError.UnexpectedError s => "Unexpected error: " ++ s
  | TcsError.StringError s => s

/-- Model of the source's `FilterPairInvalidReason`. -/
inductive FilterPairInvalidReason where
  | InvalidRecords (s : String)
  | GeneralFilterFailed (s : String)
  | R1MatchR2Mismatch (s : String)
  | R2MatchR1Mismatch (s : String)
  | R1R2MatchDifferentRegions (s : String)
  | NoMatch (s : String)
deriving DecidableEq, Repr

/-- Model of the source's `FilteredPair`. -/
structure FilteredPair where
  region : String
  umi : UMI
  r1 : FastqRecord
  r2 : FastqRecord
deriving DecidableEq, Repr

/-- Model of the source's `PairedRecordFilterResult`. -/
inductive PairedRecordFilterResult where
  | Valid (p : FilteredPair)
  | Invalid (r : FilterPairInvalidReason)
deriving DecidableEq, Repr

/-- Result of `filter_r1_r2_pairs`: `Ok`, a fatal error (`Err`), or a panic. -/
inductive FilterOutcome where
  | ok (r : PairedRecordFilterResult)
  | fatal (e : TcsError)
  | panicked
deriving DecidableEq, Repr

/-- Model of `bio`'s `fastq::Record::check` (non-empty id, ASCII sequence and
qualities, equal sequence/quality lengths). -/
def FastqRecord.check (r : FastqRecord) : Bool :=
  (r.id ≠ "") && r.seq.all (fun c => c.toNat ≤ 127) &&
    r.qual.all (fun q => q ≤ 127) && (r.seq.length = r.qual.length)

/-- `s.split_whitespace().next()`: the first whitespace-separated token, or
`none` when the string contains only whitespace. -/
def firstToken (s : List Char) : Option (List Char) :=
  let t := (s.dropWhile Char.isWhitespace).takeWhile (fun c => ¬ c.isWhitespace)
  if t = [] then none else some t

/-- Model of `validate_paired_fastq_record` from
`src/helper/tcs_helper/filter_r1_r2.rs`. -/
def validate_paired_fastq_record (r1 r2 : FastqRecord) : Except TcsError Unit :=
  if r1.is_empty || r2.is_empty then Except.error TcsError.EmptyFastqRecord
  else
    match firstToken r1.id.data with
    | none => Except.error (TcsError.InvalidR1Header r1.id)
    | some h1 =>
        match firstToken r2.id.data with
        | none => Except.error (TcsError.InvalidR2Header r2.id)
        | some h2 =>
            if h1 ≠ h2 then
              Except.error (TcsError.R1R2HeaderMismatch h1.asString h2.asString)
            else if ¬ r1.check then Except.error (TcsError.InvalidR1Record r1.id)
            else if ¬ r2.check then Except.error (TcsError.InvalidR2Record r2.id)
            else Except.ok ()

/-- Model of the custom `FastqRecordTrimExt::get_range` from
`src/helper/tcs_helper/utils.rs`: errors when `start ≥ len` or `stop > len`,
otherwise slices sequence and qualities to `[start, stop)`. -/
def get_range (r : FastqRecord) (start stop : ℕ) : Except String FastqRecord :=
  if r.seq.length ≤ start ∨ r.seq.length < stop then
    Except.error "Invalid range for trimming: start or end exceeds sequence length."
  else
    Except.ok { id := r.id, desc := r.desc,
                seq := (r.seq.take stop).drop start,
                qual := (r.qual.take stop).drop start }

/-- Whether the suffix scan of `longRunAux` has found a homopolymer of at
least 11 identical `A`/`C`/`T`/`G` bases. -/
def longRunAux : List Char → Char → ℕ → Bool
  | [], _, _ => false
  | c :: t, p, k =>
      let k' := if c = p then k + 1 else 1
      if 11 ≤ k' ∧ (c = 'A' ∨ c = 'C' ∨ c = 'T' ∨ c = 'G') then true
      else longRunAux t c k'

/-- `GENERAL_FILTER_REGEX.is_match`: the regex `N|A{11,}|C{11,}|T{11,}|G{11,}`
matches iff the string contains an `N` or a homopolymer run of length ≥ 11. -/
def generalFilterMatch (s : List Char) : Bool :=
  s.contains 'N' || longRunAux s ' ' 0

/-- Model of the source's `GeneralFilterResult`. -/
inductive GeneralFilterResult where
  | Valid
  | Invalid (msg : String)
deriving DecidableEq, Repr

/-- Model of `general_filter`; `none` models the panic of the byte slice
`&r1_seq[4..]` on a read shorter than 4 bases. -/
def general_filter (r1 r2 : FastqRecord) : Option GeneralFilterResult :=
  if r1.seq.length < 4 then none
  else
    let r1s := r1.seq.drop 4
    let m1 := generalFilterMatch r1s
    let m2 := generalFilterMatch r2.seq
    some
      (if m1 && !m2 then GeneralFilterResult.Invalid
          "General filter (N content or long homopolymers indicating quality issues) failed for R1"
        else if m2 && !m1 then GeneralFilterResult.Invalid
          "General filter (N content or long homopolymers indicating quality issues) failed for R2"
        else if m1 && m2 then GeneralFilterResult.Invalid
          "General filter (N content or long homopolymers indicating quality issues) failed for both R1 and R2"
        else GeneralFilterResult.Valid)

/-- The `IUPAC_TUPLES` table from `src/helper/tcs_helper/utils.rs`. -/
def IUPAC_TUPLES : List (Char × List Char) :=
  [('A', ['A']), ('C', ['C']), ('G', ['G']), ('T', ['T']),
   ('R', ['A', 'G']), ('Y', ['C', 'T']), ('S', ['G', 'C']), ('W', ['A', 'T']),
   ('K', ['G', 'T']), ('M', ['A', 'C']), ('B', ['C', 'G', 'T']),
   ('D', ['A', 'G', 'T']), ('H', ['A', 'C', 'T']), ('V', ['A', 'C', 'G']),
   ('N', ['A', 'C', 'G', 'T'])]

/-- Model of `get_iupac_bases`. -/
def get_iupac_bases (c : Char) : Option (List Char) :=
  (IUPAC_TUPLES.find? (fun p => p.1 = c.toUpper)).map Prod.snd

/-- Model of `iupac_matches`. -/
def iupac_matches (a b : Char) : Bool :=
  if a = b then true
  else
    match get_iupac_bases a, get_iupac_bases b with
    | some ab, some bb => ab.any (fun base => bb.contains base)
    | _, _ => false

/-- Model of `diff_by_iupac`: indices of the zipped positions whose
characters do not IUPAC-match. -/
def diff_by_iupac (a b : List Char) : List ℕ :=
  (a.zip b).enum.filterMap
    (fun p => if iupac_matches p.2.1 p.2.2 then none else some p.1)

/-- `bio::alphabets::dna::complement` on the IUPAC alphabet (as characters);
other characters are left unchanged. -/
def dnaComplement (c : Char) : Char :=
  match c with
  | 'A' => 'T' | 'C' => 'G' | 'G' => 'C' | 'T' => 'A'
  | 'a' => 't' | 'c' => 'g' | 'g' => 'c' | 't' => 'a'
  | 'R' => 'Y' | 'Y' => 'R' | 'K' => 'M' | 'M' => 'K'
  | 'r' => 'y' | 'y' => 'r' | 'k' => 'm' | 'm' => 'k'
  | 'B' => 'V' | 'V' => 'B' | 'D' => 'H' | 'H' => 'D'
  | 'b' => 'v' | 'v' => 'b' | 'd' => 'h' | 'h' => 'd'
  | x => x

/-- Model of `reverse_complement` from `src/helper/tcs_helper/utils.rs`. -/
def reverse_complement (r : FastqRecord) : FastqRecord :=
  { id := r.id, desc := r.desc,
    seq := r.seq.reverse.map dnaComplement,
    qual := r.qual.reverse }

/-- Model of `r1_matching` from `src/helper/tcs_helper/filter_r1_r2.rs`. -/
def r1_matching (r1 : FastqRecord) (fm : ForwardMatching) :
    Except TcsError (Option FastqRecord) :=
  let trim_start := fm.leading_n_number + fm.bio_forward.length
  if trim_start ≤ r1.seq.length then
    let primer_region := (r1.seq.take trim_start).drop fm.leading_n_number
    if (diff_by_iupac primer_region fm.bio_forward).length < 3 then
      match get_range r1 trim_start r1.seq.length with
      | Except.ok rec => Except.ok (some rec)
      | Except.error e => Except.error (TcsError.StringError e)
    else Except.ok none
  else Except.error (TcsError.InvalidR1Record r1.id)

/-- Model of `r2_matching` from `src/helper/tcs_helper/filter_r1_r2.rs`. -/
def r2_matching (r2 : FastqRecord) (cm : CDNAMatching) :
    Except TcsError (Option UMI × Option FastqRecord) :=
  let umi_size := cm.umi.umi_block.length
  if umi_size ≤ r2.seq.length then
    let r2_umi_block := r2.seq.take umi_size
    if cm.umi.information_index.all (fun i => i < r2_umi_block.length) then
      let r2_umi : UMI :=
        { umi_type := cm.umi.umi_type, umi_block := r2_umi_block,
          information_index := cm.umi.information_index,
          umi_information_block :=
            cm.umi.information_index.map (fun i => r2_umi_block.getD i ' ') }
      let trim_start := umi_size + cm.bio_cdna.length
      if trim_start ≤ r2.seq.length then
        let primer_region := (r2.seq.take trim_start).drop umi_size
        if (diff_by_iupac primer_region cm.bio_cdna).length < 3 then
          match get_range r2 trim_start r2.seq.length with
          | Except.ok rec => Except.ok (some r2_umi, some rec)
          | Except.error e => Except.error (TcsError.StringError e)
        else Except.ok (none, none)
      else Except.error (TcsError.InvalidR2Record r2.id)
    else Except.error (TcsError.InvalidR2Record r2.id)
  else Except.error (TcsError.InvalidR2Record r2.id)

/-- `HashMap::insert` on an association list: replace the value of an
existing key, else append. -/
def insertAssoc (l : List (String × FilterPairInvalidReason)) (k : String)
    (v : FilterPairInvalidReason) : List (String × FilterPairInvalidReason) :=
  match l with
  | [] => [(k, v)]
  | (a, w) :: t => if a = k then (a, v) :: t else (a, w) :: insertAssoc t k v

/-- The per-region loop of `filter_r1_r2_pairs`: returns the first valid
pair, or the accumulated no-match map. -/
def filterRegionsLoop (r1t r2t : FastqRecord)
    (acc : List (String × FilterPairInvalidReason)) :
    List ValidatedRegionParams →
    Except TcsError (Option FilteredPair × List (String × FilterPairInvalidReason))
  | [] => Except.ok (none, acc)
  | rp :: rest =>
    match r1_matching r1t rp.forward_matching with
    | Except.error e => Except.error e
    | Except.ok r1m =>
      match r2_matching r2t rp.cdna_matching with
      | Except.error e => Except.error e
      | Except.ok r2pair =>
        let r2m : Option (UMI × FastqRecord) :=
          match r2pair with
          | (some u, some rec) => some (u, rec)
          | _ => none
        match r1m, r2m with
        | some r1rec, some ur =>
            Except.ok (some { region := rp.region, umi := ur.1, r1 := r1rec,
                              r2 := reverse_complement ur.2 }, acc)
        | some _, none =>
            filterRegionsLoop r1t r2t
              (insertAssoc acc rp.region
                (FilterPairInvalidReason.R1MatchR2Mismatch rp.region)) rest
        | none, some _ =>
            filterRegionsLoop r1t r2t
              (insertAssoc acc rp.region
                (FilterPairInvalidReason.R2MatchR1Mismatch rp.region)) rest
        | none, none =>
            filterRegionsLoop r1t r2t
              (insertAssoc acc rp.region
                (FilterPairInvalidReason.NoMatch "No match")) rest

/-- Whether a reason is the `NoMatch` variant. -/
def FilterPairInvalidReason.isNoMatch : FilterPairInvalidReason → Bool
  | FilterPairInvalidReason.NoMatch _ => true
  | _ => false

/-- Ascending insertion into a sorted list of strings. -/
def insertStr (x : String) : List String → List String
  | [] => [x]
  | y :: t => if x ≤ y then x :: y :: t else y :: insertStr x t

/-- Ascending sort of a list of strings (`Vec::sort`). -/
def sortStrings (l : List String) : List String := l.foldr insertStr []

/-- Model of `consolidate_no_match` from
`src/helper/tcs_helper/filter_r1_r2.rs`. -/
def consolidate_no_match (m : List (String × FilterPairInvalidReason)) :
    Except TcsError FilterPairInvalidReason :=
  match m with
  | [] => Except.error (TcsError.UnexpectedError "Region Not found in R1 R2 filter results")
  | (_, v) :: rest =>
    if rest = [] then Except.ok v
    else if m.all (fun p => p.2.isNoMatch) then
      Except.ok (FilterPairInvalidReason.NoMatch "No match")
    else
      let r1_regions := sortStrings (m.filterMap (fun p =>
        match p.2 with
        | FilterPairInvalidReason.R1MatchR2Mismatch _ => some p.1
        | _ => none))
      let r2_regions := sortStrings (m.filterMap (fun p =>
        match p.2 with
        | FilterPairInvalidReason.R2MatchR1Mismatch _ => some p.1
        | _ => none))
      if r1_regions ≠ [] ∧ r2_regions ≠ [] then
        Except.ok (FilterPairInvalidReason.R1R2MatchDifferentRegions
          ("R1 regions: " ++ String.intercalate ", " r1_regions ++
            ", R2 regions: " ++ String.intercalate ", " r2_regions))
      else if r1_regions ≠ [] then
        Except.ok (FilterPairInvalidReason.R1MatchR2Mismatch
          (String.intercalate ", " r1_regions))
      else if r2_regions ≠ [] then
        Except.ok (FilterPairInvalidReason.R2MatchR1Mismatch
          (String.intercalate ", " r2_regions))
      else Except.ok (FilterPairInvalidReason.NoMatch "No match")

/-- The part of `filter_r1_r2_pairs` applied to the clipped reads: general
quality filter, per-region primer matching, and no-match consolidation. -/
def filterAfterClip (r1t r2t : FastqRecord) (params : ValidatedParams) :
    FilterOutcome :=
  match general_filter r1t r2t with
  | none => FilterOutcome.panicked
  | some (GeneralFilterResult.Invalid msg) =>
      FilterOutcome.ok (PairedRecordFilterResult.Invalid
        (FilterPairInvalidReason.GeneralFilterFailed msg))
  | some GeneralFilterResult.Valid =>
      match filterRegionsLoop r1t r2t [] params.primer_pairs with
      | Except.error e => FilterOutcome.fatal e
      | Except.ok (some fp, _) =>
          FilterOutcome.ok (PairedRecordFilterResult.Valid fp)
      | Except.ok (none, acc) =>
          match consolidate_no_match acc with
          | Except.error e => FilterOutcome.fatal e
          | Except.ok reason =>
              FilterOutcome.ok (PairedRecordFilterResult.Invalid reason)

/-- Model of `filter_r1_r2_pairs` from
`src/helper/tcs_helper/filter_r1_r2.rs`.  `panicked` covers the
`primer_pairs[0]` index on an empty vector and the `platform_format - 1`
usize underflow. -/
def filter_r1_r2_pairs (r1 r2 : FastqRecord) (params : ValidatedParams) :
    FilterOutcome :=
  match validate_paired_fastq_record r1 r2 with
  | Except.error e =>
      FilterOutcome.ok (PairedRecordFilterResult.Invalid
        (FilterPairInvalidReason.InvalidRecords (tcsErrorMessage e)))
  | Except.ok _ =>
    match params.primer_pairs with
    | [] => FilterOutcome.panicked
    | rp :: _ =>
      let pf := rp.platform_format
      if pf ≤ r1.seq.length ∧ pf ≤ r2.seq.length then
        if pf = 0 then FilterOutcome.panicked
        else
          match get_range r1 0 (pf - 1), get_range r2 0 (pf - 1) with
          | Except.ok r1t, Except.ok r2t => filterAfterClip r1t r2t params
          | Except.error e, _ => FilterOutcome.fatal (TcsError.StringError e)
          | _, Except.error e => FilterOutcome.fatal (TcsError.StringError e)
      else FilterOutcome.fatal (TcsError.InvalidReadLength pf r1.seq.length r2.seq.length)

/-!  Model of `find_umi_family_by_error_cutoff` and
`build_from_filtered_pairs`. -/

/-- Model of the source's `UMIFamily`. -/
structure UMIFamily where
  umi_information_block : List Char
  frequency : ℕ
deriving DecidableEq, Repr

/-- Model of the source's `UMISummary` (`HashMap`s as association lists in
insertion order). -/
structure UMISummary where
  umi_cut_off : ℕ
  umi_freq : List (List Char × ℕ)
  umi_freq_distribution : List (ℕ × ℕ)
deriving DecidableEq, Repr

/-- Model of the source's `UMIDistError`. -/
inductive UMIDistError where
  | TooFewUMIs
  | TooFewRecords
deriving DecidableEq, Repr

/-- Descending insertion into a sorted list of naturals. -/
def insertDesc (x : ℕ) : List ℕ → List ℕ
  | [] => [x]
  | y :: t => if y < x then x :: y :: t else y :: insertDesc x t

/-- Descending sort. -/
def sortDesc (l : List ℕ) : List ℕ := l.foldr insertDesc []

/-- itertools `k_largest(k).sum()`: the sum of the `k` largest elements. -/
def kLargestSum (l : List ℕ) (k : ℕ) : ℕ := ((sortDesc l).take k).sum

/-- Model of `UMIInformationBlocks::find_umi_family_by_error_cutoff` from
`src/helper/umis.rs`.  The `f64` mean of the five largest frequencies is
exact here: its fractional part is a multiple of `1/5`, so `f64` rounding
never crosses a half-integer boundary. -/
def find_umi_family_by_error_cutoff (blocks : List (List Char)) (error_cutoff : ℚ) :
    Except UMIDistError (List UMIFamily × UMISummary) :=
  if blocks.length < 5 then Except.error UMIDistError.TooFewRecords
  else
    let umi_freq := countsList blocks
    let freq_count := umi_freq.map Prod.snd
    if freq_count.length < 5 then Except.error UMIDistError.TooFewUMIs
    else
      let max_freq := (rustRound ((kLargestSum freq_count 5 : ℚ) / 5)).toNat
      let cutoff := umi_cut_off max_freq (some error_cutoff)
      let families := (umi_freq.filter (fun p => cutoff < p.2)).map
        (fun p => UMIFamily.mk p.1 p.2)
      Except.ok (families,
        { umi_cut_off := cutoff, umi_freq := umi_freq,
          umi_freq_distribution := countsList freq_count })

/-- Append a read pair to the record group of a UMI information block
(`umi_records.entry(block).or_insert_with(Vec::new).push(...)`). -/
def addPairGroup (l : List (List Char × List (FastqRecord × FastqRecord)))
    (k : List Char) (v : FastqRecord × FastqRecord) :
    List (List Char × List (FastqRecord × FastqRecord)) :=
  match l with
  | [] => [(k, [v])]
  | (a, vs) :: t => if a = k then (a, vs ++ [v]) :: t else (a, vs) :: addPairGroup t k v

/-- Group the filtered pairs by UMI information block, in insertion order. -/
def groupPairs (pairs : List FilteredPair) :
    List (List Char × List (FastqRecord × FastqRecord)) :=
  pairs.foldl (fun acc p => addPairGroup acc p.umi.umi_information_block (p.r1, p.r2)) []

/-- Association-list lookup. -/
def lookupAssoc {α β : Type} [DecidableEq α] (l : List (α × β)) (k : α) : Option β :=
  match l with
  | [] => none
  | (a, v) :: t => if a = k then some v else lookupAssoc t k

/-- The fields of `TcsConsensus` set by `build_from_filtered_pairs`. -/
structure TcsConsensus where
  umi_information_block : List Char
  umi_family_size : ℕ
  r1_consensus : FastqRecord
  r2_consensus : FastqRecord
deriving DecidableEq, Repr

/-- The `thiserror` display strings of `ConsensusError`. -/
def consensusErrorMessage : ConsensusError → String
  | ConsensusError.InvalidRecordsNumber n =>
      "At least 2 records are required to compute a consensus. Current number of records: "
        ++ toString n
  | ConsensusError.InvalidSequenceLength => "All sequences must be the same length"
  | ConsensusError.MissingQualityScores => "Missing quality scores for the Weighted strategy"

/-- Per-family outcome inside `build_from_filtered_pairs`: a built consensus,
a collected error string, or a panic from `.qual.unwrap()`. -/
inductive FamilyOutcome where
  | built (t : TcsConsensus)
  | err (msg : String)
  | panicked

/-- Process one UMI family (the closure of the `par_iter().map(...)` in
`build_from_filtered_pairs`); the `.unwrap()` of a `None` consensus quality
is a panic. -/
def processFamily (strategy : ConsensusStrategy)
    (groups : List (List Char × List (FastqRecord × FastqRecord)))
    (fam : UMIFamily) : FamilyOutcome :=
  match lookupAssoc groups fam.umi_information_block with
  | none => FamilyOutcome.err
      ("Unexpected error: No filtered pairs found for UMI information block: " ++
        fam.umi_information_block.asString)
  | some fps =>
    match consensus strategy (ConsensusInput.Fastq (fps.map Prod.fst)) with
    | ConsensusOutcome.err e => FamilyOutcome.err (consensusErrorMessage e)
    | ConsensusOutcome.panicked => FamilyOutcome.panicked
    | ConsensusOutcome.ok r1c =>
      match consensus strategy (ConsensusInput.Fastq (fps.map Prod.snd)) with
      | ConsensusOutcome.err e => FamilyOutcome.err (consensusErrorMessage e)
      | ConsensusOutcome.panicked => FamilyOutcome.panicked
      | ConsensusOutcome.ok r2c =>
        match r1c.qual with
        | none => FamilyOutcome.panicked
        | some q1 =>
          match r2c.qual with
          | none => FamilyOutcome.panicked
          | some q2 =>
            FamilyOutcome.built
              { umi_information_block := fam.umi_information_block,
                umi_family_size := fam.frequency,
                r1_consensus :=
                  { id := fam.umi_information_block.asString ++ "_" ++
                      toString fam.frequency ++ "_r1",
                    desc := none, seq := r1c.seq, qual := q1 },
                r2_consensus :=
                  { id := fam.umi_information_block.asString ++ "_" ++
                      toString fam.frequency ++ "_r2",
                    desc := none, seq := r2c.seq, qual := q2 } }

/-- Model of the source's `TcsConsensusBuildingOutput`. -/
structure TcsConsensusBuildingOutput where
  tcs_consensus : List TcsConsensus
  errors : List String
  umi_summary : UMISummary
deriving DecidableEq, Repr

/-- Result of `build_from_filtered_pairs`: `Ok`, the `UMIDistError` from the
cutoff computation, or a panic propagated out of the parallel map. -/
inductive BuildResult where
  | ok (out : TcsConsensusBuildingOutput)
  | err (e : UMIDistError)
  | panicked
deriving DecidableEq, Repr

/-- Whether a family outcome is a panic. -/
def FamilyOutcome.isPanicked : FamilyOutcome → Bool
  | FamilyOutcome.panicked => true
  | _ => false

/-- Model of `build_from_filtered_pairs` from
`src/helper/tcs_helper/tcs_consensus.rs`. -/
def build_from_filtered_pairs (pairs : List FilteredPair)
    (strategy : ConsensusStrategy) (error_cutoff : ℚ) : BuildResult :=
  let blocks := pairs.map (fun p => p.umi.umi_information_block)
  let groups := groupPairs pairs
  match find_umi_family_by_error_cutoff blocks error_cutoff with
  | Except.error e => BuildResult.err e
  | Except.ok (families, summary) =>
    let outcomes := families.map (processFamily strategy groups)
    if outcomes.any (fun o => o.isPanicked) then BuildResult.panicked
    else BuildResult.ok
      { tcs_consensus := outcomes.filterMap (fun o =>
          match o with
          | FamilyOutcome.built t => some t
          | _ => none),
        errors := outcomes.filterMap (fun o =>
          match o with
          | FamilyOutcome.err m => some m
          | _ => none),
        umi_summary := summary }

def c9w_rp : ValidatedRegionParams :=
  { platform_error_rate := 1 / 100, platform_format := 6, region := "R",
    forward_matching := { forward := "AA".data, leading_n_number := 0,
                          bio_forward := "AA".data },
    cdna_matching := { cdna := "CC".data,
                       umi := { umi_type := UMIType.UMI, umi_block := "NN".data,
                                information_index := [0, 1],
                                umi_information_block := "NN".data },
                       bio_cdna := "CC".data },
    majority := 1 / 2, end_join := false, end_join_option := 1, overlap := 0,
    tcs_qc := false, qc_config := none, trim := false, trim_config := none }

def c9w_r1 : FastqRecord :=
  { id := "s 1", desc := none, seq := "ACGTAC".data, qual := [60, 60, 60, 60, 60, 60] }

def c9w_r2 : FastqRecord :=
  { id := "s 2", desc := none, seq := "ACGTAC".data, qual := [60, 60, 60, 60, 60, 60] }

/-- A regular single-base UMI used by the C10 examples. -/
def c10_umi (b : List Char) : UMI :=
  { umi_type := UMIType.UMI, umi_block := b, information_index := [0],
    umi_information_block := b }

def c10_rA1 : FastqRecord := { id := "a", desc := none, seq := "AC".data, qual := [60, 60] }

def c10_rA2 : FastqRecord := { id := "a", desc := none, seq := "GT".data, qual := [60, 60] }

def c10_rX : FastqRecord := { id := "x", desc := none, seq := "AC".data, qual := [60, 60] }

def c10_pair (b : List Char) (r1 r2 : FastqRecord) : FilteredPair :=
  { region := "R", umi := c10_umi b, r1 := r1, r2 := r2 }

/-- Ten filtered pairs over five distinct UMIs with frequencies 6,1,1,1,1;
all reads of the surviving family share the same length. -/
def c10_pairs : List FilteredPair :=
  List.replicate 6 (c10_pair (List.cons 'A' List.nil) c10_rA1 c10_rA2) ++
    [c10_pair (List.cons 'B' List.nil) c10_rX c10_rX,
     c10_pair (List.cons 'C' List.nil) c10_rX c10_rX,
     c10_pair (List.cons 'D' List.nil) c10_rX c10_rX,
     c10_pair (List.cons 'E' List.nil) c10_rX c10_rX]

/-- Same UMI distribution, but the surviving family contains R1 reads of two
different lengths, so its consensus fails with `InvalidSequenceLength`. -/
def c10bad_pairs : List FilteredPair :=
  c10_pair (List.cons 'A' List.nil)
      { id := "a", desc := none, seq := "A".data, qual := [60] } c10_rA2 ::
    (List.replicate 5 (c10_pair (List.cons 'A' List.nil) c10_rA1 c10_rA2) ++
      [c10_pair (List.cons 'B' List.nil) c10_rX c10_rX,
       c10_pair (List.cons 'C' List.nil) c10_rX c10_rX,
       c10_pair (List.cons 'D' List.nil) c10_rX c10_rX,
       c10_pair (List.cons 'E' List.nil) c10_rX c10_rX])

/-- The UMI information blocks of both C10 examples. -/
def c10_blocks : List (List Char) :=
  [['A'], ['A'], ['A'], ['A'], ['A'], ['A'], ['B'], ['C'], ['D'], ['E']]

def c10_summary : UMISummary :=
  { umi_cut_off := 2,
    umi_freq := [(['A'], 6), (['B'], 1), (['C'], 1), (['D'], 1), (['E'], 1)],
    umi_freq_distribution := [(6, 1), (1, 4)] }

theorem rustRound_intCast (z : ℤ) : rustRound (z : ℚ) = z := by
  unfold rustRound
  have hhalf : (⌊(1 : ℚ) / 2⌋ : ℤ) = 0 := by
    have := Rat.floor_natCast_div_natCast 1 2
    simpa using this
  by_cases h : (0 : ℚ) ≤ (z : ℚ)
  · rw [if_pos h, Int.floor_int_add, hhalf, add_zero]
  · rw [if_neg h]
    have : (-(z : ℚ) + 1 / 2) = ((-z : ℤ) : ℚ) + 1 / 2 := by push_cast; ring
    rw [this, Int.floor_int_add, hhalf, add_zero, neg_neg]

theorem rustRound_div (n : ℤ) (d : ℕ) (hd : 0 < d) :
    rustRound ((n : ℚ) / (d : ℚ)) = rustRoundDiv n d := by
  unfold rustRound rustRoundDiv
  have hdq : (0 : ℚ) < (d : ℚ) := by exact_mod_cast hd
  have hcond : ((0 : ℚ) ≤ (n : ℚ) / (d : ℚ)) ↔ (0 : ℤ) ≤ n := by
    rw [le_div_iff₀ hdq]
    simp
  by_cases h : (0 : ℤ) ≤ n
  · rw [if_pos (hcond.mpr h), if_pos h]
    have : (n : ℚ) / (d : ℚ) + 1 / 2 = ((2 * n + d : ℤ) : ℚ) / (((2 * d : ℕ) : ℤ) : ℚ) := by
      push_cast
      field_simp
      ring
    rw [this]
    have := Rat.floor_intCast_div_natCast (2 * n + d) (2 * d)
    push_cast at this ⊢
    rw [this]
  · rw [if_neg (fun hc => h (hcond.mp hc)), if_neg h]
    have : -((n : ℚ) / (d : ℚ)) + 1 / 2 = ((2 * -n + d : ℤ) : ℚ) / (((2 * d : ℕ) : ℤ) : ℚ) := by
      push_cast
      field_simp
      ring
    rw [this]
    have := Rat.floor_intCast_div_natCast (2 * -n + d) (2 * d)
    push_cast at this ⊢
    rw [this]

theorem poly_explicit (c0 c1 c2 c3 c4 c5 c6 : ℚ) (m : ℕ) :
    poly [c0, c1, c2, c3, c4, c5, c6] m =
      c0 * (m : ℚ) ^ 6 + c1 * (m : ℚ) ^ 5 + c2 * (m : ℚ) ^ 4 + c3 * (m : ℚ) ^ 3 +
        c4 * (m : ℚ) ^ 2 + c5 * (m : ℚ) + c6 := by
  have hr : List.range 7 = [0, 1, 2, 3, 4, 5, 6] := by rfl
  simp only [poly, List.length_cons, List.length_nil, hr]
  norm_num [List.zip, List.zipWith, List.sum_cons]
  ring

theorem poly_low_eq (m : ℕ) : poly coeffs_low_error m = ((hornLow m : ℤ) : ℚ) / 10 ^ 29 := by
  rw [coeffs_low_error, poly_explicit, hornLow]
  push_cast
  field_simp
  ring

theorem poly_mid_eq (m : ℕ) : poly coeffs_mid_error m = ((hornMid m : ℤ) : ℚ) / 10 ^ 28 := by
  rw [coeffs_mid_error, poly_explicit, hornMid]
  push_cast
  field_simp
  ring

theorem poly_high_eq (m : ℕ) : poly coeffs_high_error m = ((hornHigh m : ℤ) : ℚ) / 10 ^ 23 := by
  rw [coeffs_high_error, poly_explicit, hornHigh]
  push_cast
  field_simp
  ring


theorem umi_cut_off_small (m : ℕ) (e : Option ℚ) (hm : m ≤ 10) : umi_cut_off m e = 2 := by
  simp [umi_cut_off, hm]

theorem umi_cut_off_low_branch (m : ℕ) (e : Option ℚ) (hb : errorBucket e ≤ 4) (h10 : 10 < m) :
    umi_cut_off m e = max ((rustRound (poly coeffs_low_error m)).toNat) 2 := by
  have h14 : errorBucket e ≤ 14 := by omega
  simp [umi_cut_off, hb, h14, Nat.not_le.mpr h10]

theorem umi_cut_off_mid_branch (m : ℕ) (e : Option ℚ) (hb4 : 4 < errorBucket e)
    (hb : errorBucket e ≤ 14) (h10 : 10 < m) :
    umi_cut_off m e = max ((rustRound (poly coeffs_mid_error m)).toNat) 2 := by
  simp [umi_cut_off, Nat.not_le.mpr hb4, hb, Nat.not_le.mpr h10]

theorem umi_cut_off_high_branch (m : ℕ) (e : Option ℚ) (hb : 14 < errorBucket e)
    (h10 : 10 < m) (hm : m ≤ 8500) :
    umi_cut_off m e = max ((rustRound (poly coeffs_high_error m)).toNat) 2 := by
  have hb4 : ¬ errorBucket e ≤ 4 := by omega
  simp [umi_cut_off, hb4, Nat.not_le.mpr hb, Nat.not_le.mpr h10, Nat.not_lt.mpr hm]

theorem umi_cut_off_lin_branch (m : ℕ) (e : Option ℚ) (hb : 14 < errorBucket e)
    (hm : 8500 < m) :
    umi_cut_off m e = (rustRound (79 / 10 ^ 4 * (m : ℚ) + 94869 / 10 ^ 4)).toNat := by
  have hb4 : ¬ errorBucket e ≤ 4 := by omega
  have h10 : ¬ m ≤ 10 := by omega
  simp [umi_cut_off, hb4, Nat.not_le.mpr hb, h10, hm]

theorem umi_cut_off_eq_cutLow (m : ℕ) (e : Option ℚ) (hb : errorBucket e ≤ 4) (h10 : 10 < m) :
    umi_cut_off m e = cutLow m := by
  rw [umi_cut_off_low_branch m e hb h10, cutLow, poly_low_eq]
  rw [show ((10 : ℚ) ^ 29) = (((10 ^ 29 : ℕ) : ℤ) : ℚ) by push_cast; ring]
  rw [show (((hornLow m : ℤ)) : ℚ) / (((10 ^ 29 : ℕ) : ℤ) : ℚ) =
        ((hornLow m : ℤ) : ℚ) / ((10 ^ 29 : ℕ) : ℚ) by push_cast; ring]
  rw [rustRound_div _ _ (by positivity)]

theorem umi_cut_off_eq_cutMid (m : ℕ) (e : Option ℚ) (hb4 : 4 < errorBucket e)
    (hb : errorBucket e ≤ 14) (h10 : 10 < m) :
    umi_cut_off m e = cutMid m := by
  rw [umi_cut_off_mid_branch m e hb4 hb h10, cutMid, poly_mid_eq]
  rw [show (((hornMid m : ℤ)) : ℚ) / ((10 : ℚ) ^ 28) =
        ((hornMid m : ℤ) : ℚ) / ((10 ^ 28 : ℕ) : ℚ) by push_cast; ring]
  rw [rustRound_div _ _ (by positivity)]

theorem umi_cut_off_eq_cutHigh (m : ℕ) (e : Option ℚ) (hb : 14 < errorBucket e)
    (h10 : 10 < m) (hm : m ≤ 8500) :
    umi_cut_off m e = cutHigh m := by
  rw [umi_cut_off_high_branch m e hb h10 hm, cutHigh, poly_high_eq]
  rw [show (((hornHigh m : ℤ)) : ℚ) / ((10 : ℚ) ^ 23) =
        ((hornHigh m : ℤ) : ℚ) / ((10 ^ 23 : ℕ) : ℚ) by push_cast; ring]
  rw [rustRound_div _ _ (by positivity)]

theorem umi_cut_off_eq_cutLin (m : ℕ) (e : Option ℚ) (hb : 14 < errorBucket e)
    (hm : 8500 < m) :
    umi_cut_off m e = cutLin m := by
  rw [umi_cut_off_lin_branch m e hb hm, cutLin]
  rw [show (79 / 10 ^ 4 * (m : ℚ) + 94869 / 10 ^ 4) =
        ((79 * (m : ℕ) + 94869 : ℤ) : ℚ) / ((10 ^ 4 : ℕ) : ℚ) by push_cast; ring]
  rw [rustRound_div _ _ (by positivity)]


/-- Bernstein-certificate monotonicity of the scaled low-error polynomial on the calibration range: the forward difference is a nonnegative combination of `(m - 11) ^ i * (9999 - m) ^ (5 - i)`. -/
theorem hornLow_step (m : ℕ) (h1 : 11 ≤ m) (h2 : m ≤ 9999) : hornLow m ≤ hornLow (m + 1) := by
  have hx : (0 : ℤ) ≤ (m : ℤ) - 11 := by omega
  have hy : (0 : ℤ) ≤ 9999 - (m : ℤ) := by omega
  have hid : (99401438273036551168 : ℤ) * (hornLow (m + 1) - hornLow m) =
      403896776214131203222368343 * (9999 - (m : ℤ)) ^ 5 +
      1582836003811392637354204203 * ((m : ℤ) - 11) * (9999 - (m : ℤ)) ^ 4 +
      2651093010557037228805706582 * ((m : ℤ) - 11) ^ 2 * (9999 - (m : ℤ)) ^ 3 +
      2373744376096580306326164838 * ((m : ℤ) - 11) ^ 3 * (9999 - (m : ℤ)) ^ 2 +
      1122338223150463152737175747 * ((m : ℤ) - 11) ^ 4 * (9999 - (m : ℤ)) +
      220175674137835588769460959 * ((m : ℤ) - 11) ^ 5 := by
    simp only [hornLow]
    push_cast
    ring
  have t0 : (0 : ℤ) ≤ 403896776214131203222368343 * (9999 - (m : ℤ)) ^ 5 :=
    mul_nonneg (by norm_num) (pow_nonneg hy 5)
  have t1 : (0 : ℤ) ≤ 1582836003811392637354204203 * ((m : ℤ) - 11) * (9999 - (m : ℤ)) ^ 4 :=
    mul_nonneg (mul_nonneg (by norm_num) hx) (pow_nonneg hy 4)
  have t2 : (0 : ℤ) ≤ 2651093010557037228805706582 * ((m : ℤ) - 11) ^ 2 * (9999 - (m : ℤ)) ^ 3 :=
    mul_nonneg (mul_nonneg (by norm_num) (pow_nonneg hx 2)) (pow_nonneg hy 3)
  have t3 : (0 : ℤ) ≤ 2373744376096580306326164838 * ((m : ℤ) - 11) ^ 3 * (9999 - (m : ℤ)) ^ 2 :=
    mul_nonneg (mul_nonneg (by norm_num) (pow_nonneg hx 3)) (pow_nonneg hy 2)
  have t4 : (0 : ℤ) ≤ 1122338223150463152737175747 * ((m : ℤ) - 11) ^ 4 * (9999 - (m : ℤ)) :=
    mul_nonneg (mul_nonneg (by norm_num) (pow_nonneg hx 4)) hy
  have t5 : (0 : ℤ) ≤ 220175674137835588769460959 * ((m : ℤ) - 11) ^ 5 :=
    mul_nonneg (by norm_num) (pow_nonneg hx 5)
  linarith

/-- Bernstein-certificate monotonicity of the scaled mid-error polynomial on the calibration range. -/
theorem hornMid_step (m : ℕ) (h1 : 11 ≤ m) (h2 : m ≤ 9999) : hornMid m ≤ hornMid (m + 1) := by
  have hx : (0 : ℤ) ≤ (m : ℤ) - 11 := by omega
  have hy : (0 : ℤ) ≤ 9999 - (m : ℤ) := by omega
  have hid : (99401438273036551168 : ℤ) * (hornMid (m + 1) - hornMid m) =
      64446910085237336579792107 * (9999 - (m : ℤ)) ^ 5 +
      276159566188945621523795247 * ((m : ℤ) - 11) * (9999 - (m : ℤ)) ^ 4 +
      490369920516743877091866718 * ((m : ℤ) - 11) ^ 2 * (9999 - (m : ℤ)) ^ 3 +
      450931016927026353241634862 * ((m : ℤ) - 11) ^ 3 * (9999 - (m : ℤ)) ^ 2 +
      213545487457161570703667303 * ((m : ℤ) - 11) ^ 4 * (9999 - (m : ℤ)) +
      41336743483801375514359891 * ((m : ℤ) - 11) ^ 5 := by
    simp only [hornMid]
    push_cast
    ring
  have t0 : (0 : ℤ) ≤ 64446910085237336579792107 * (9999 - (m : ℤ)) ^ 5 :=
    mul_nonneg (by norm_num) (pow_nonneg hy 5)
  have t1 : (0 : ℤ) ≤ 276159566188945621523795247 * ((m : ℤ) - 11) * (9999 - (m : ℤ)) ^ 4 :=
    mul_nonneg (mul_nonneg (by norm_num) hx) (pow_nonneg hy 4)
  have t2 : (0 : ℤ) ≤ 490369920516743877091866718 * ((m : ℤ) - 11) ^ 2 * (9999 - (m : ℤ)) ^ 3 :=
    mul_nonneg (mul_nonneg (by norm_num) (pow_nonneg hx 2)) (pow_nonneg hy 3)
  have t3 : (0 : ℤ) ≤ 450931016927026353241634862 * ((m : ℤ) - 11) ^ 3 * (9999 - (m : ℤ)) ^ 2 :=
    mul_nonneg (mul_nonneg (by norm_num) (pow_nonneg hx 3)) (pow_nonneg hy 2)
  have t4 : (0 : ℤ) ≤ 213545487457161570703667303 * ((m : ℤ) - 11) ^ 4 * (9999 - (m : ℤ)) :=
    mul_nonneg (mul_nonneg (by norm_num) (pow_nonneg hx 4)) hy
  have t5 : (0 : ℤ) ≤ 41336743483801375514359891 * ((m : ℤ) - 11) ^ 5 :=
    mul_nonneg (by norm_num) (pow_nonneg hx 5)
  linarith

/-- Bernstein-certificate monotonicity of the scaled high-error polynomial on `[11, 1000]`. -/
theorem hornHigh_step_lowrange (m : ℕ) (h1 : 11 ≤ m) (h2 : m ≤ 1000) : hornHigh m ≤ hornHigh (m + 1) := by
  have hx : (0 : ℤ) ≤ (m : ℤ) - 11 := by omega
  have hy : (0 : ℤ) ≤ 1000 - (m : ℤ) := by omega
  have hid : (946196763043949 : ℤ) * (hornHigh (m + 1) - hornHigh m) =
      1786145926604716341548 * (1000 - (m : ℤ)) ^ 5 +
      7746467580604396793444 * ((m : ℤ) - 11) * (1000 - (m : ℤ)) ^ 4 +
      13741245461545265517596 * ((m : ℤ) - 11) ^ 2 * (1000 - (m : ℤ)) ^ 3 +
      12456266195206035476964 * ((m : ℤ) - 11) ^ 3 * (1000 - (m : ℤ)) ^ 2 +
      5760781886848947895196 * ((m : ℤ) - 11) ^ 4 * (1000 - (m : ℤ)) +
      1084735528796792785876 * ((m : ℤ) - 11) ^ 5 := by
    simp only [hornHigh]
    push_cast
    ring
  have t0 : (0 : ℤ) ≤ 1786145926604716341548 * (1000 - (m : ℤ)) ^ 5 :=
    mul_nonneg (by norm_num) (pow_nonneg hy 5)
  have t1 : (0 : ℤ) ≤ 7746467580604396793444 * ((m : ℤ) - 11) * (1000 - (m : ℤ)) ^ 4 :=
    mul_nonneg (mul_nonneg (by norm_num) hx) (pow_nonneg hy 4)
  have t2 : (0 : ℤ) ≤ 13741245461545265517596 * ((m : ℤ) - 11) ^ 2 * (1000 - (m : ℤ)) ^ 3 :=
    mul_nonneg (mul_nonneg (by norm_num) (pow_nonneg hx 2)) (pow_nonneg hy 3)
  have t3 : (0 : ℤ) ≤ 12456266195206035476964 * ((m : ℤ) - 11) ^ 3 * (1000 - (m : ℤ)) ^ 2 :=
    mul_nonneg (mul_nonneg (by norm_num) (pow_nonneg hx 3)) (pow_nonneg hy 2)
  have t4 : (0 : ℤ) ≤ 5760781886848947895196 * ((m : ℤ) - 11) ^ 4 * (1000 - (m : ℤ)) :=
    mul_nonneg (mul_nonneg (by norm_num) (pow_nonneg hx 4)) hy
  have t5 : (0 : ℤ) ≤ 1084735528796792785876 * ((m : ℤ) - 11) ^ 5 :=
    mul_nonneg (by norm_num) (pow_nonneg hx 5)
  linarith

/-- Bernstein-certificate monotonicity of the scaled high-error polynomial on `[1000, 8499]`. -/
theorem hornHigh_step_highrange (m : ℕ) (h1 : 1000 ≤ m) (h2 : m ≤ 8499) : hornHigh m ≤ hornHigh (m + 1) := by
  have hx : (0 : ℤ) ≤ (m : ℤ) - 1000 := by omega
  have hy : (0 : ℤ) ≤ 8499 - (m : ℤ) := by omega
  have hid : (23714652655687537499 : ℤ) * (hornHigh (m + 1) - hornHigh m) =
      1084735528796792785876 * (8499 - (m : ℤ)) ^ 5 +
      2867616251421259420124 * ((m : ℤ) - 1000) * (8499 - (m : ℤ)) ^ 4 +
      15599658364540380579876 * ((m : ℤ) - 1000) ^ 2 * (8499 - (m : ℤ)) ^ 3 +
      1301170225174619420124 * ((m : ℤ) - 1000) ^ 3 * (8499 - (m : ℤ)) ^ 2 +
      5896159151258590579876 * ((m : ℤ) - 1000) ^ 4 * (8499 - (m : ℤ)) +
      768064992168357206124 * ((m : ℤ) - 1000) ^ 5 := by
    simp only [hornHigh]
    push_cast
    ring
  have t0 : (0 : ℤ) ≤ 1084735528796792785876 * (8499 - (m : ℤ)) ^ 5 :=
    mul_nonneg (by norm_num) (pow_nonneg hy 5)
  have t1 : (0 : ℤ) ≤ 2867616251421259420124 * ((m : ℤ) - 1000) * (8499 - (m : ℤ)) ^ 4 :=
    mul_nonneg (mul_nonneg (by norm_num) hx) (pow_nonneg hy 4)
  have t2 : (0 : ℤ) ≤ 15599658364540380579876 * ((m : ℤ) - 1000) ^ 2 * (8499 - (m : ℤ)) ^ 3 :=
    mul_nonneg (mul_nonneg (by norm_num) (pow_nonneg hx 2)) (pow_nonneg hy 3)
  have t3 : (0 : ℤ) ≤ 1301170225174619420124 * ((m : ℤ) - 1000) ^ 3 * (8499 - (m : ℤ)) ^ 2 :=
    mul_nonneg (mul_nonneg (by norm_num) (pow_nonneg hx 3)) (pow_nonneg hy 2)
  have t4 : (0 : ℤ) ≤ 5896159151258590579876 * ((m : ℤ) - 1000) ^ 4 * (8499 - (m : ℤ)) :=
    mul_nonneg (mul_nonneg (by norm_num) (pow_nonneg hx 4)) hy
  have t5 : (0 : ℤ) ≤ 768064992168357206124 * ((m : ℤ) - 1000) ^ 5 :=
    mul_nonneg (by norm_num) (pow_nonneg hx 5)
  linarith

/-- `rustRoundDiv` (round half away from zero of `n / d`) is monotone in the
numerator. -/
theorem rustRoundDiv_mono (n1 n2 : ℤ) (d : ℕ) (hd : 0 < d) (h : n1 ≤ n2) :
    rustRoundDiv n1 d ≤ rustRoundDiv n2 d := by
  unfold rustRoundDiv
  have hd2 : (0 : ℤ) < 2 * (d : ℤ) := by positivity
  by_cases h1 : (0 : ℤ) ≤ n1
  · rw [if_pos h1, if_pos (le_trans h1 h)]
    exact Int.ediv_le_ediv hd2 (by omega)
  · rw [if_neg h1]
    by_cases h2 : (0 : ℤ) ≤ n2
    · rw [if_pos h2]
      have hL : -((2 * -n1 + (d : ℤ)) / (2 * (d : ℤ))) ≤ 0 := by
        have : (0 : ℤ) ≤ (2 * -n1 + (d : ℤ)) / (2 * (d : ℤ)) :=
          Int.ediv_nonneg (by omega) (by omega)
        omega
      have hR : (0 : ℤ) ≤ (2 * n2 + (d : ℤ)) / (2 * (d : ℤ)) :=
        Int.ediv_nonneg (by omega) (by omega)
      omega
    · rw [if_neg h2]
      have := Int.ediv_le_ediv hd2 (show 2 * -n2 + (d : ℤ) ≤ 2 * -n1 + (d : ℤ) by omega)
      omega

theorem cutLow_step (m : ℕ) (h1 : 11 ≤ m) (h2 : m < 10000) : cutLow m ≤ cutLow (m + 1) := by
  unfold cutLow
  exact max_le_max
    (Int.toNat_le_toNat (rustRoundDiv_mono _ _ _ (by norm_num)
      (hornLow_step m h1 (by omega)))) le_rfl

theorem cutMid_step (m : ℕ) (h1 : 11 ≤ m) (h2 : m < 10000) : cutMid m ≤ cutMid (m + 1) := by
  unfold cutMid
  exact max_le_max
    (Int.toNat_le_toNat (rustRoundDiv_mono _ _ _ (by norm_num)
      (hornMid_step m h1 (by omega)))) le_rfl

theorem cutHigh_step (m : ℕ) (h1 : 11 ≤ m) (h2 : m < 8500) : cutHigh m ≤ cutHigh (m + 1) := by
  unfold cutHigh
  have hh : hornHigh m ≤ hornHigh (m + 1) := by
    by_cases hc : m ≤ 1000
    · exact hornHigh_step_lowrange m h1 (by omega)
    · exact hornHigh_step_highrange m (by omega) (by omega)
  exact max_le_max
    (Int.toNat_le_toNat (rustRoundDiv_mono _ _ _ (by norm_num) hh)) le_rfl

theorem mono_chain (f : ℕ → ℕ) (lo hi : ℕ) (hstep : ∀ m, lo ≤ m → m < hi → f m ≤ f (m + 1)) :
    ∀ m1 m2, lo ≤ m1 → m1 ≤ m2 → m2 ≤ hi → f m1 ≤ f m2 := by
  intro m1 m2 h1 h12
  induction h12 with
  | refl => exact fun _ => le_rfl
  | @step n hn ih =>
    intro h2
    exact le_trans (ih (by omega)) (hstep n (le_trans h1 hn) (by omega))


theorem two_le_cutLin (m : ℕ) : 2 ≤ cutLin m := by
  unfold cutLin rustRoundDiv
  have hn : (0 : ℤ) ≤ 79 * (m : ℤ) + 94869 := by positivity
  rw [if_pos hn]
  have h2 : (2 : ℤ) ≤ (2 * (79 * (m : ℤ) + 94869) + (10 ^ 4 : ℕ)) / (2 * (10 ^ 4 : ℕ)) := by
    rw [Int.le_ediv_iff_mul_le (by norm_num)]
    push_cast
    nlinarith [Int.natCast_nonneg m]
  omega

theorem two_le_umi_cut_off (m : ℕ) (e : Option ℚ) : 2 ≤ umi_cut_off m e := by
  by_cases hm : m ≤ 10
  · rw [umi_cut_off_small m e hm]
  · push_neg at hm
    by_cases hb4 : errorBucket e ≤ 4
    · rw [umi_cut_off_low_branch m e hb4 hm]; exact le_max_right _ _
    · by_cases hb14 : errorBucket e ≤ 14
      · rw [umi_cut_off_mid_branch m e (by omega) hb14 hm]; exact le_max_right _ _
      · by_cases h85 : m ≤ 8500
        · rw [umi_cut_off_high_branch m e (by omega) hm h85]; exact le_max_right _ _
        · rw [umi_cut_off_eq_cutLin m e (by omega) (by omega)]
          exact two_le_cutLin m

theorem errorBucket_eval (a : ℕ) (b : ℤ) (e : ℚ) (he : e * 1000 = (b : ℚ)) (hb : b.toNat = a) :
    errorBucket (some e) = a := by
  unfold errorBucket
  rw [Option.getD_some, he, rustRound_intCast, hb]

theorem errorBucket_50 : errorBucket (some (1 / 50)) = 20 :=
  errorBucket_eval 20 20 _ (by norm_num) rfl

theorem errorBucket_15 : errorBucket (some (15 / 1000)) = 15 :=
  errorBucket_eval 15 15 _ (by norm_num) rfl

theorem errorBucket_200 : errorBucket (some (1 / 200)) = 5 :=
  errorBucket_eval 5 5 _ (by norm_num) rfl

theorem errorBucket_1000 : errorBucket (some (1 / 1000)) = 1 :=
  errorBucket_eval 1 1 _ (by norm_num) rfl

theorem cutLin_mono (m1 m2 : ℕ) (h : m1 ≤ m2) : cutLin m1 ≤ cutLin m2 := by
  unfold cutLin rustRoundDiv
  have h1 : (0 : ℤ) ≤ 79 * (m1 : ℤ) + 94869 := by positivity
  have h2 : (0 : ℤ) ≤ 79 * (m2 : ℤ) + 94869 := by positivity
  rw [if_pos h1, if_pos h2]
  have hZ : (2 * (79 * (m1 : ℤ) + 94869) + (10 ^ 4 : ℕ)) / (2 * (10 ^ 4 : ℕ)) ≤
      (2 * (79 * (m2 : ℤ) + 94869) + (10 ^ 4 : ℕ)) / (2 * (10 ^ 4 : ℕ)) := by
    apply Int.ediv_le_ediv (by norm_num)
    have : (m1 : ℤ) ≤ (m2 : ℤ) := by exact_mod_cast h
    nlinarith
  omega


/-- Claim C4 (amended).  For every error rate `ε ∈ [0, 0.1]` and `M1 ≤ M2` in the
same piecewise segment of `umi_cut_off` — both at most 10, both in the linear
override range, or both in the polynomial range with `M2` within the calibration
range `M2 ≤ 10000` — the cutoff is monotone: `umi_cut_off M1 ε ≤ umi_cut_off M2 ε`;
and for every `M` and `ε`, `umi_cut_off M ε ≥ 2`.  (The unrestricted polynomial
segment version of the claim is refuted by `umi_cut_off_not_monotone_in_poly_segment`.) -/
theorem umi_cut_off_segment_monotone_and_ge_two :
    (∀ (e : ℚ) (m1 m2 : ℕ), 0 ≤ e → e ≤ 1 / 10 → m1 ≤ m2 →
      ((m1 ≤ 10 ∧ m2 ≤ 10) ∨ (inLinRange e m1 ∧ inLinRange e m2) ∨
        (inPolyRange e m1 ∧ inPolyRange e m2 ∧ m2 ≤ 10000)) →
      umi_cut_off m1 (some e) ≤ umi_cut_off m2 (some e)) ∧
    (∀ (m : ℕ) (e : Option ℚ), 2 ≤ umi_cut_off m e) := by
  constructor
  · intro e m1 m2 _ _ h12 hseg
    rcases hseg with ⟨hs1, hs2⟩ | ⟨⟨hb1, hm1⟩, ⟨_, hm2⟩⟩ | ⟨⟨h10a, hsa⟩, ⟨h10b, hsb⟩, hcap⟩
    · rw [umi_cut_off_small m1 _ hs1, umi_cut_off_small m2 _ hs2]
    · rw [umi_cut_off_eq_cutLin m1 _ hb1 hm1, umi_cut_off_eq_cutLin m2 _ hb1 hm2]
      exact cutLin_mono m1 m2 h12
    · by_cases hb4 : errorBucket (some e) ≤ 4
      · rw [umi_cut_off_eq_cutLow m1 _ hb4 h10a, umi_cut_off_eq_cutLow m2 _ hb4 h10b]
        exact mono_chain cutLow 11 10000 cutLow_step m1 m2 (by omega) h12 (by omega)
      · by_cases hb14 : errorBucket (some e) ≤ 14
        · rw [umi_cut_off_eq_cutMid m1 _ (by omega) hb14 h10a,
            umi_cut_off_eq_cutMid m2 _ (by omega) hb14 h10b]
          exact mono_chain cutMid 11 10000 cutMid_step m1 m2 (by omega) h12 (by omega)
        · have ha : m1 ≤ 8500 := by rcases hsa with h | h; omega; exact h
          have hbb : m2 ≤ 8500 := by rcases hsb with h | h; omega; exact h
          rw [umi_cut_off_eq_cutHigh m1 _ (by omega) h10a ha,
            umi_cut_off_eq_cutHigh m2 _ (by omega) h10b hbb]
          exact mono_chain cutHigh 11 8500 cutHigh_step m1 m2 (by omega) h12 hbb
  · exact two_le_umi_cut_off

/-- Witness for C4: concrete instance of the monotonicity statement at
`ε = 0.02`, `M1 = 100`, `M2 = 200` (polynomial segment) and of the lower bound at
`M = 7`. -/
theorem umi_cut_off_segment_monotone_witness :
    umi_cut_off 100 (some (1 / 50)) ≤ umi_cut_off 200 (some (1 / 50)) ∧
    2 ≤ umi_cut_off 7 (some (1 / 50)) :=
  ⟨umi_cut_off_segment_monotone_and_ge_two.1 (1 / 50) 100 200 (by norm_num) (by norm_num)
      (by norm_num)
      (Or.inr (Or.inr ⟨⟨by norm_num, Or.inr (by norm_num)⟩, ⟨by norm_num, Or.inr (by norm_num)⟩,
        by norm_num⟩)),
    umi_cut_off_segment_monotone_and_ge_two.2 7 (some (1 / 50))⟩

/-- Counterexample to C4 as stated: with `ε = 0.001` (bucket 1), both
`M1 = 200000` and `M2 = 1000000` lie in the polynomial segment, yet the cutoff
decreases from `32691` to `2` (the degree-6 calibration polynomial has a negative
leading coefficient, so it collapses for large `M`). -/
theorem umi_cut_off_not_monotone_in_poly_segment :
    0 ≤ (1 : ℚ) / 1000 ∧ (1 : ℚ) / 1000 ≤ 1 / 10 ∧ (200000 : ℕ) ≤ 1000000 ∧
    inPolyRange (1 / 1000) 200000 ∧ inPolyRange (1 / 1000) 1000000 ∧
    umi_cut_off 1000000 (some (1 / 1000)) < umi_cut_off 200000 (some (1 / 1000)) := by
  refine ⟨by norm_num, by norm_num, by norm_num, ⟨by norm_num, Or.inl ?_⟩,
    ⟨by norm_num, Or.inl ?_⟩, ?_⟩
  · rw [errorBucket_1000]; norm_num
  · rw [errorBucket_1000]; norm_num
  · rw [umi_cut_off_eq_cutLow 1000000 _ (by rw [errorBucket_1000]; norm_num) (by norm_num),
      umi_cut_off_eq_cutLow 200000 _ (by rw [errorBucket_1000]; norm_num) (by norm_num)]
    show cutLow 1000000 < cutLow 200000
    decide

/-- Claim C5: the cutoff reproduces the calibrated boundary values exactly, and
the linear override `round(0.0079·M + 9.4869)` is used exactly on the
highest-error buckets (`bucket ≥ 15`) for `M > 8500`, the polynomial otherwise. -/
theorem umi_cut_off_calibrated_values :
    umi_cut_off 10 (some (1 / 50)) = 2 ∧
    umi_cut_off 1000 (some (15 / 1000)) = 17 ∧
    umi_cut_off 8500 (some (1 / 50)) = 83 ∧
    umi_cut_off 10000 (some (1 / 50)) = 88 ∧
    umi_cut_off 10000 (some (1 / 200)) = 53 ∧
    umi_cut_off 10000 (some (1 / 1000)) = 30 ∧
    (∀ (m : ℕ) (e : Option ℚ), 14 < errorBucket e → 8500 < m →
      umi_cut_off m e = (rustRound (79 / 10 ^ 4 * (m : ℚ) + 94869 / 10 ^ 4)).toNat) ∧
    (∀ (m : ℕ) (e : Option ℚ), 14 < errorBucket e → 10 < m → m ≤ 8500 →
      umi_cut_off m e = max ((rustRound (poly coeffs_high_error m)).toNat) 2) := by
  refine ⟨umi_cut_off_small 10 _ (by norm_num), ?_, ?_, ?_, ?_, ?_,
    umi_cut_off_lin_branch, umi_cut_off_high_branch⟩
  · rw [umi_cut_off_eq_cutHigh 1000 _ (by rw [errorBucket_15]; norm_num) (by norm_num) (by norm_num)]
    decide
  · rw [umi_cut_off_eq_cutHigh 8500 _ (by rw [errorBucket_50]; norm_num) (by norm_num)
      (by norm_num)]
    decide
  · rw [umi_cut_off_eq_cutLin 10000 _ (by rw [errorBucket_50]; norm_num) (by norm_num)]
    decide
  · rw [umi_cut_off_eq_cutMid 10000 _ (by rw [errorBucket_200]; norm_num)
      (by rw [errorBucket_200]; norm_num) (by norm_num)]
    decide
  · rw [umi_cut_off_eq_cutLow 10000 _ (by rw [errorBucket_1000]; norm_num) (by norm_num)]
    decide

/-- Witness for C5: the linear-override and polynomial-branch equations of the
claim instantiated at concrete arguments. -/
theorem umi_cut_off_calibrated_values_witness :
    14 < errorBucket (some (1 / 50)) ∧ 8500 < 10000 ∧
    umi_cut_off 10000 (some (1 / 50)) =
      (rustRound (79 / 10 ^ 4 * ((10000 : ℕ) : ℚ) + 94869 / 10 ^ 4)).toNat :=
  ⟨by rw [errorBucket_50]; norm_num, by norm_num,
    umi_cut_off_calibrated_values.2.2.2.2.2.2.1 10000 (some (1 / 50))
      (by rw [errorBucket_50]; norm_num) (by norm_num)⟩





theorem extract_information_index_aux_spec (l : List Char) :
    ∀ k, extract_information_index_aux l k =
      ((List.range l.length).filter (fun j => l.getD j ' ' = 'N')).map (fun j => j + k) := by
  induction l with
  | nil => intro k; rfl
  | cons c t ih =>
    intro k
    have hpred : ∀ j, (decide (((c :: t).getD (Nat.succ j) ' ') = 'N')) =
        (decide ((t.getD j ' ') = 'N')) := fun j => by simp [List.getD_cons_succ]
    simp only [extract_information_index_aux, List.length_cons, List.range_succ_eq_map,
      List.filter_cons, List.filter_map, List.map_cons]
    by_cases hc : c = 'N'
    · rw [if_pos hc, if_pos (by simp [List.getD_cons_zero, hc]), ih (k + 1), List.map_cons,
        List.map_map]
      simp only [Function.comp_def]
      refine List.cons_eq_cons.mpr ⟨by simp, ?_⟩
      rw [List.filter_congr (fun j _ => hpred j)]
      apply List.map_congr_left
      intro j _
      omega
    · rw [if_neg hc, if_neg (by simp [List.getD_cons_zero, hc]), ih (k + 1), List.map_map]
      simp only [Function.comp_def]
      rw [List.filter_congr (fun j _ => hpred j)]
      apply List.map_congr_left
      intro j _
      omega

theorem extract_information_index_spec (u : List Char) :
    extract_information_index u = (List.range u.length).filter (fun j => u.getD j ' ' = 'N') := by
  rw [extract_information_index, extract_information_index_aux_spec u 0]
  simp

theorem extract_information_index_chars (u : List Char) :
    (extract_information_index u).map (fun i => u.getD i ' ') = u.filter (fun c => c = 'N') := by
  rw [extract_information_index_spec]
  induction u with
  | nil => rfl
  | cons c t ih =>
    have hpred : ∀ j, (decide (((c :: t).getD (Nat.succ j) ' ') = 'N')) =
        (decide ((t.getD j ' ') = 'N')) := fun j => by simp [List.getD_cons_succ]
    simp only [List.length_cons, List.range_succ_eq_map, List.filter_cons, List.filter_map]
    by_cases hc : c = 'N'
    · rw [if_pos (by simp [List.getD_cons_zero, hc]), if_pos (by simp [hc])]
      rw [List.map_cons, List.map_map]
      simp only [Function.comp_def]
      refine List.cons_eq_cons.mpr ⟨by simp [List.getD_cons_zero, hc], ?_⟩
      rw [List.filter_congr (fun j _ => hpred j), ← ih]
      apply List.map_congr_left
      intro j _
      simp [List.getD_cons_succ]
    · rw [if_neg (by simp [List.getD_cons_zero, hc]), if_neg (by simp [hc])]
      rw [List.map_map]
      simp only [Function.comp_def]
      rw [List.filter_congr (fun j _ => hpred j), ← ih]
      apply List.map_congr_left
      intro j _
      simp [List.getD_cons_succ]

/-- Counterexample to C2 as stated: `NNNNNNNNGGNNNGGNNNNNNNN` contains two runs
of `N` of length at least 8 and the patterned regex matches it (at offset 4,
length 15), yet `UMI::identify` returns the multiple-regular-UMI error without
attempting the patterned regex. -/
theorem identify_multi_run_counterexample :
    (longNRuns "NNNNNNNNGGNNNGGNNNNNNNN".data).length = 2 ∧
    patFind "NNNNNNNNGGNNNGGNNNNNNNN".data = some (4, 15) ∧
    identify "NNNNNNNNGGNNNGGNNNNNNNN".data =
      Except.error "More than one Regular UMI found, and they do not fit the patterned UMI format. Please check your input." := by
  refine ⟨by decide, by decide, by decide⟩

/-- Claim C2 (amended).  The patterned regex `(N{3,4}[^N]{2,3}){2,5}N{3,4}` is
attempted only when the primer contains no run of `N` of length at least 8; a
match yields a `Patterned` layout whose `information_index` lists exactly the
positions of `N` within the matched block and whose `umi_information_block` is
the `N`-only substring of that block; when the patterned regex also fails, the
result is the `No UMI found` error.  A primer with more than one such run is
rejected with the multiple-regular-UMI error and the patterned regex is not
consulted. -/
theorem identify_patterned_path :
    (∀ (s : List Char) (st len : ℕ), longNRuns s = [] → patFind s = some (st, len) →
      identify s =
        Except.ok ({ umi_type := UMIType.UMIWithPattern,
                     umi_block := (s.drop st).take len,
                     information_index := extract_information_index ((s.drop st).take len),
                     umi_information_block :=
                       (extract_information_index ((s.drop st).take len)).map
                         (fun i => ((s.drop st).take len).getD i ' ') }, st, st + len) ∧
        extract_information_index ((s.drop st).take len) =
          (List.range ((s.drop st).take len).length).filter
            (fun j => ((s.drop st).take len).getD j ' ' = 'N') ∧
        (extract_information_index ((s.drop st).take len)).map
            (fun i => ((s.drop st).take len).getD i ' ') =
          ((s.drop st).take len).filter (fun c => c = 'N')) ∧
    (∀ s : List Char, longNRuns s = [] → patFind s = none →
      identify s = Except.error "No UMI found") ∧
    (∀ s : List Char, 2 ≤ (longNRuns s).length →
      identify s =
        Except.error "More than one Regular UMI found, and they do not fit the patterned UMI format. Please check your input.") := by
  refine ⟨?_, ?_, ?_⟩
  · intro s st len h0 hp
    refine ⟨?_, extract_information_index_spec _, extract_information_index_chars _⟩
    rw [identify, h0, hp]
  · intro s h0 hp
    rw [identify, h0, hp]
  · intro s h2
    rcases hr : longNRuns s with _ | ⟨a, _ | ⟨b, t⟩⟩
    · rw [hr] at h2; simp at h2
    · rw [hr] at h2; simp at h2
    · rw [identify, hr]

/-- Witness for C2 (amended): the patterned doctest primer
`AAAAAANNNRYNNNRYNNNRYNNNGGGGG` has no long `N` run, the patterned regex
matches at `(6, 18)`, and `identify` returns the documented `Patterned`
layout. -/
theorem identify_patterned_path_witness :
    identify "AAAAAANNNRYNNNRYNNNRYNNNGGGGG".data =
      Except.ok ({ umi_type := UMIType.UMIWithPattern,
                   umi_block := ("AAAAAANNNRYNNNRYNNNRYNNNGGGGG".data.drop 6).take 18,
                   information_index :=
                     extract_information_index (("AAAAAANNNRYNNNRYNNNRYNNNGGGGG".data.drop 6).take 18),
                   umi_information_block :=
                     (extract_information_index
                         (("AAAAAANNNRYNNNRYNNNRYNNNGGGGG".data.drop 6).take 18)).map
                       (fun i => (("AAAAAANNNRYNNNRYNNNRYNNNGGGGG".data.drop 6).take 18).getD i ' ') },
        6, 6 + 18) :=
  (identify_patterned_path.1 "AAAAAANNNRYNNNRYNNNRYNNNGGGGG".data 6 18 (by decide) (by decide)).1

/-- Claim C3 (amended).  Whenever `trim_sequence_from_locator` returns `Ok`,
the trimmed sequence contains no gap character; and additionally, whenever the
locator's query-aligned string itself contains no gap character, the returned
index range is well formed within the ungapped query and its length equals
the trimmed sequence's length (so the quality vector sliced by it matches the
trimmed sequence).  With gaps inside the query-aligned string the length
equation fails; see `trim_sequence_from_locator_range_counterexample`. -/
theorem trim_sequence_from_locator_ok_spec (loc : Locator) (start fin : ℕ)
    (seq : List Char) (a b : ℕ)
    (h : trim_sequence_from_locator loc start fin = Except.ok (seq, a, b)) :
    (∀ c ∈ seq, c ≠ '-') ∧
    ((∀ c ∈ loc.query_aligned_string, c ≠ '-') →
      a ≤ b ∧ b ≤ loc.query_aligned_string.length ∧ b - a = seq.length) := by
  rw [trim_sequence_from_locator] at h
  set q := loc.query_aligned_string with hq
  set g1 := trimLeftLoop loc.ref_aligned_string loc.ref_start start 0 with hg1
  set g2 := trimRightLoop loc.ref_aligned_string.reverse (loc.ref_end : ℤ) fin 0 with hg2
  by_cases hcond : q.length ≤ g1 ∨ q.length ≤ g2 ∨ q.length < g1 + g2
  · rw [if_pos hcond] at h
    exact absurd h (by simp)
  · rw [if_neg hcond] at h
    push_neg at hcond
    obtain ⟨h1, h2, h3⟩ := hcond
    injection h with h'
    injection h' with hseq hab
    injection hab with ha hb
    constructor
    · intro c hc
      rw [← hseq] at hc
      have := List.of_mem_filter hc
      simpa using this
    · intro hnogap
      have htake : (q.take g1).filter (fun c => c ≠ '-') = q.take g1 := by
        apply List.filter_eq_self.mpr
        intro c hc
        simpa using hnogap c (List.mem_of_mem_take hc)
      have hdropf : (q.drop (q.length - g2)).filter (fun c => c ≠ '-') = q.drop (q.length - g2) := by
        apply List.filter_eq_self.mpr
        intro c hc
        simpa using hnogap c (List.mem_of_mem_drop hc)
      have hmidf : ((q.drop g1).take (q.length - g2 - g1)).filter (fun c => c ≠ '-') =
          (q.drop g1).take (q.length - g2 - g1) := by
        apply List.filter_eq_self.mpr
        intro c hc
        simpa using hnogap c (List.mem_of_mem_drop (List.mem_of_mem_take hc))
      rw [hmidf] at hseq
      rw [htake] at ha
      rw [hdropf] at hb
      have hla : a = g1 := by
        rw [← ha, List.length_take]
        omega
      have hlb : b = q.length - g2 := by
        rw [← hb, List.length_drop]
        omega
      have hlseq : seq.length = q.length - g2 - g1 := by
        rw [← hseq, List.length_take, List.length_drop]
        omega
      refine ⟨by omega, by omega, by omega⟩

/-- Counterexample to C3 as stated: with a gap inside the query-aligned string
(`A-CG` against reference `AACG`), trimming succeeds, the trimmed sequence is
the 3-base `ACG`, but the returned range `0..4` has length 4. -/
theorem trim_sequence_from_locator_range_counterexample :
    trim_sequence_from_locator
        { query_aligned_string := "A-CG".data, ref_aligned_string := "AACG".data,
          ref_start := 0, ref_end := 4, indel := false, percent_identity := 0 } 0 4 =
      Except.ok ("ACG".data, 0, 4) ∧
    4 - 0 ≠ ("ACG".data).length := by
  constructor
  · decide
  · decide

/-- Witness for C3 (amended): a gap-free locator output where the trimmed
sequence is `CG` and the range `1..3` has matching length 2. -/
theorem trim_sequence_from_locator_ok_spec_witness :
    trim_sequence_from_locator
        { query_aligned_string := "ACGT".data, ref_aligned_string := "ACGT".data,
          ref_start := 0, ref_end := 4, indel := false, percent_identity := 0 } 1 3 =
      Except.ok ("CG".data, 1, 3) ∧
    (∀ c ∈ ("CG".data), c ≠ '-') ∧ 3 - 1 = ("CG".data).length :=
  have h := trim_sequence_from_locator_ok_spec
    { query_aligned_string := "ACGT".data, ref_aligned_string := "ACGT".data,
      ref_start := 0, ref_end := 4, indel := false, percent_identity := 0 } 1 3
    "CG".data 1 3 (by decide)
  ⟨by decide, h.1, (h.2 (by decide)).2.2⟩



/-- Counterexample to C1 as stated: a region with valid primers, QC disabled,
trimming enabled, and well-formed trim coordinates (`50 < 250`) is rejected by
`Params::validate` with `TrimmingCoordinatesOutsideQCReference`, although the
claim says trimming with QC disabled never produces that error. -/
theorem validate_trim_without_qc_counterexample :
    c1_region.tcs_qc = false ∧ c1_region.trim = true ∧
    c1_region.trim_ref_start = some 50 ∧ c1_region.trim_ref_end = some 250 ∧ 50 < 250 ∧
    Params.validate c1_params =
      Except.error (ValidateError.params
        ParamsValidationError.TrimmingCoordinatesOutsideQCReference) := by
  refine ⟨rfl, rfl, rfl, rfl, by norm_num, ?_⟩
  rw [Params.validate, if_neg (by norm_num [c1_params])]
  decide

theorem trim_section_missing (r : RegionParams) (rs re : Option (ℕ × ℕ))
    (ht : r.trim = true) (hnone : r.trim_ref_start = none ∨ r.trim_ref_end = none) :
    trim_section r rs re =
      Except.error (ValidateError.params
        ParamsValidationError.TCSTrimReferenceCoordinatesNotProvided) := by
  rcases hnone with h | h
  · rw [trim_section, if_pos ht, h]
  · rw [trim_section, if_pos ht, h]
    rcases r.trim_ref_start with _ | ts <;> rfl

theorem trim_section_inverted (r : RegionParams) (rs re : Option (ℕ × ℕ)) (ts te : ℕ)
    (ht : r.trim = true) (hts : r.trim_ref_start = some ts) (hte : r.trim_ref_end = some te)
    (hle : te ≤ ts) :
    trim_section r rs re =
      Except.error (ValidateError.params
        (ParamsValidationError.InvalidReferenceGenomeCoordinates ts te)) := by
  rw [trim_section, if_pos ht, hts, hte]
  simp [hle]

theorem trim_section_pass (r : RegionParams) (rs re : Option (ℕ × ℕ)) (ts te : ℕ)
    (s e : ℕ × ℕ) (ht : r.trim = true) (hts : r.trim_ref_start = some ts)
    (hte : r.trim_ref_end = some te) (hlt : ts < te) (hrs : rs = some s) (hre : re = some e)
    (h1 : s.2 ≤ ts) (h2 : ts ≤ e.1) :
    trim_section r rs re =
      Except.ok ((if r.ref_genome = "HXB2" ∨ r.ref_genome = "SIVmm239" then r.ref_genome
        else "HXB2"), ts, te) := by
  rw [trim_section, if_pos ht, hts, hte, hrs, hre]
  have hn : ¬ te ≤ ts := by omega
  simp [hn, h1, h2]

theorem trim_section_outside_iff (r : RegionParams) (rs re : Option (ℕ × ℕ)) :
    trim_section r rs re =
      Except.error (ValidateError.params
        ParamsValidationError.TrimmingCoordinatesOutsideQCReference) ↔
    (r.trim = true ∧ ∃ ts te, r.trim_ref_start = some ts ∧ r.trim_ref_end = some te ∧
      ts < te ∧ ¬(∃ s e, rs = some s ∧ re = some e ∧ s.2 ≤ ts ∧ ts ≤ e.1)) := by
  constructor
  · intro h
    by_cases ht : r.trim
    · rcases hts : r.trim_ref_start with _ | ts
      · rw [trim_section_missing r rs re ht (Or.inl hts)] at h
        simp at h
      · rcases hte : r.trim_ref_end with _ | te
        · rw [trim_section_missing r rs re ht (Or.inr hte)] at h
          simp at h
        · by_cases hlt : te ≤ ts
          · rw [trim_section_inverted r rs re ts te ht hts hte hlt] at h
            simp at h
          · refine ⟨ht, ts, te, rfl, rfl, by omega, ?_⟩
            rintro ⟨s, e, hrs, hre, h1, h2⟩
            rw [trim_section_pass r rs re ts te s e ht hts hte (by omega) hrs hre h1 h2] at h
            simp at h
    · rw [trim_section, if_neg ht] at h
      simp at h
  · rintro ⟨ht, ts, te, hts, hte, hlt, hout⟩
    rw [trim_section, if_pos ht, hts, hte]
    have hn : ¬ te ≤ ts := by omega
    rcases hrs : rs with _ | s
    · rcases hre : re with _ | e <;> simp [hn]
    · rcases hre : re with _ | e
      · simp [hn]
      · have hnot : ¬(s.2 ≤ ts ∧ ts ≤ e.1) := by
          rintro ⟨h1, h2⟩
          exact hout ⟨s, e, hrs, hre, h1, h2⟩
        simp [hn, hnot]

theorem validate_region_of_trim_section (per : ℚ) (pf : ℕ) (r : RegionParams)
    (fm : ForwardMatching) (cm : CDNAMatching) (g : String)
    (rs re : Option (ℕ × ℕ)) (err : ValidateError)
    (hf : validate_forward_primer r.forward = Except.ok fm)
    (hc : validate_cdna_primer r.cdna = Except.ok cm)
    (hejo : 1 ≤ r.end_join_option ∧ r.end_join_option ≤ 4)
    (hqc : qc_section r = Except.ok (g, rs, re)) :
    trim_section r rs re = Except.error err →
      validate_region per pf r = Except.error err := by
  intro h
  simp only [validate_region, hf, hc, if_pos hejo, hqc, h]

theorem validate_region_trim_error_inv (per : ℚ) (pf : ℕ) (r : RegionParams)
    (fm : ForwardMatching) (cm : CDNAMatching) (g : String)
    (rs re : Option (ℕ × ℕ))
    (hf : validate_forward_primer r.forward = Except.ok fm)
    (hc : validate_cdna_primer r.cdna = Except.ok cm)
    (hejo : 1 ≤ r.end_join_option ∧ r.end_join_option ≤ 4)
    (hqc : qc_section r = Except.ok (g, rs, re)) (err : ValidateError)
    (h : validate_region per pf r = Except.error err) :
    trim_section r rs re = Except.error err := by
  simp only [validate_region, hf, hc, if_pos hejo, hqc] at h
  rcases hsec : trim_section r rs re with e | v
  · rw [hsec] at h
    simpa using h
  · rw [hsec] at h
    simp at h


/-- Claim C1 (amended).  For a region whose primer validation, end-join option
and QC section all pass, `Params::validate`'s per-region body enforces that
both trim coordinates are present and `trim_start < trim_end`, and it fails
with `TrimmingOutsideQC` exactly when, additionally, the processed QC ranges
do not both exist or `trim_start` lies outside `[qc_start.end, qc_end.start]`
— in particular always when QC is disabled (the processed ranges are then
both `none`); `trim_ref_end` is never compared against the QC window. -/
theorem validate_region_trim_spec (per : ℚ) (pf : ℕ) (r : RegionParams)
    (fm : ForwardMatching) (cm : CDNAMatching) (g : String)
    (rs re : Option (ℕ × ℕ))
    (hf : validate_forward_primer r.forward = Except.ok fm)
    (hc : validate_cdna_primer r.cdna = Except.ok cm)
    (hejo : 1 ≤ r.end_join_option ∧ r.end_join_option ≤ 4)
    (hqc : qc_section r = Except.ok (g, rs, re)) :
    (r.trim = true → (r.trim_ref_start = none ∨ r.trim_ref_end = none) →
      validate_region per pf r =
        Except.error (ValidateError.params
          ParamsValidationError.TCSTrimReferenceCoordinatesNotProvided)) ∧
    (∀ ts te, r.trim = true → r.trim_ref_start = some ts → r.trim_ref_end = some te →
      te ≤ ts →
      validate_region per pf r =
        Except.error (ValidateError.params
          (ParamsValidationError.InvalidReferenceGenomeCoordinates ts te))) ∧
    (validate_region per pf r =
        Except.error (ValidateError.params
          ParamsValidationError.TrimmingCoordinatesOutsideQCReference) ↔
      (r.trim = true ∧ ∃ ts te, r.trim_ref_start = some ts ∧ r.trim_ref_end = some te ∧
        ts < te ∧ ¬(∃ s e, rs = some s ∧ re = some e ∧ s.2 ≤ ts ∧ ts ≤ e.1))) ∧
    (r.tcs_qc = false → rs = none ∧ re = none) := by
  refine ⟨?_, ?_, ?_, ?_⟩
  · intro ht hnone
    exact validate_region_of_trim_section per pf r fm cm g rs re _ hf hc hejo hqc
      (trim_section_missing r rs re ht hnone)
  · intro ts te ht hts hte hle
    exact validate_region_of_trim_section per pf r fm cm g rs re _ hf hc hejo hqc
      (trim_section_inverted r rs re ts te ht hts hte hle)
  · constructor
    · intro h
      exact (trim_section_outside_iff r rs re).mp
        (validate_region_trim_error_inv per pf r fm cm g rs re hf hc hejo hqc _ h)
    · intro hcond
      exact validate_region_of_trim_section per pf r fm cm g rs re _ hf hc hejo hqc
        ((trim_section_outside_iff r rs re).mpr hcond)
  · intro hq
    rw [qc_section, hq] at hqc
    simp at hqc
    exact ⟨hqc.2.1.symm, hqc.2.2.symm⟩

/-- Witness for C1 (amended): the region of the source's own
`test_validate_params_invalid` (QC windows `[100,120)` and `[200,201)`, trim
window `50..250`) is rejected with `TrimmingOutsideQC` because
`trim_start = 50` lies left of `qc_start.end = 120`. -/
theorem validate_region_trim_spec_witness :
    validate_region 0 300
        { c1_region with
          tcs_qc := true, ref_start := 100, ref_start_lower := some 120,
          ref_end := 200, ref_end_lower := none } =
      Except.error (ValidateError.params
        ParamsValidationError.TrimmingCoordinatesOutsideQCReference) :=
  ((validate_region_trim_spec 0 300 _
      { forward := "AAANNNNNGGGGGG".data, leading_n_number := 5, bio_forward := "GGGGGG".data }
      { cdna := "CCCNNNNNNNNNNNNGGGGGGG".data,
        umi := { umi_type := UMIType.UMI, umi_block := (List.replicate 12 'N'),
                 information_index := [0, 1, 2, 3, 4, 5, 6, 7, 8, 9, 10, 11],
                 umi_information_block := (List.replicate 12 'N') },
        bio_cdna := "GGGGGGG".data }
      "HXB2" (some (100, 120)) (some (200, 201))
      (by decide) (by decide) (by decide) (by decide)).2.2.1).mpr
    ⟨rfl, 50, 250, rfl, rfl, by norm_num, fun he => by
      obtain ⟨s, e, hs, _, h1, _⟩ := he
      injection hs with hs'
      rw [← hs'] at h1
      omega⟩

theorem join_simple_overlap_len (r1 r2 : List Char) (q1 q2 : Option (List ℕ)) (L : ℕ) :
    (join_with_overlap r1 q1 r2 q2 (from_simple_overlap r1.length r2.length L)).seq.length =
      r1.length + r2.length - min (min L r1.length) r2.length := by
  have hol1 : min (min L r1.length) r2.length ≤ r1.length := by omega
  have hol2 : min (min L r1.length) r2.length ≤ r2.length := by omega
  have hne : ¬ (((r1.length - min (min L r1.length) r2.length : ℕ) : ℤ) < 0) :=
    not_lt.mpr (Int.natCast_nonneg _)
  simp only [join_with_overlap, from_simple_overlap, hne, if_false, Int.toNat_natCast,
    List.length_append, List.length_take, List.length_map, List.length_range]
  by_cases hlt : r1.length - min (min L r1.length) r2.length + min (min L r1.length) r2.length
      < r1.length
  · omega
  · rw [if_neg hlt]
    by_cases h2 : 0 + min (min L r1.length) r2.length < r2.length
    · rw [if_pos h2]
      simp only [List.length_drop]
      omega
    · rw [if_neg h2]
      simp only [List.length_nil]
      omega


theorem countMismatches_self (l : List Char) : countMismatches l l = 0 := by
  induction l with
  | nil => rfl
  | cons c t ih =>
    simp only [countMismatches, List.zip_cons_cons, List.filter_cons] at ih ⊢
    rw [if_neg (by simp)]
    exact ih

theorem mem_offsetList {lo hi o : ℤ} (h : o ∈ offsetList lo hi) : lo ≤ o ∧ o ≤ hi := by
  unfold offsetList at h
  rw [List.mem_map] at h
  obtain ⟨i, hmem, hoi⟩ := h
  rw [List.mem_range] at hmem
  subst hoi
  omega

theorem offsetList_split (lo m hi : ℤ) (h1 : lo ≤ m) (h2 : m ≤ hi + 1) :
    offsetList lo hi = offsetList lo (m - 1) ++ offsetList m hi := by
  unfold offsetList
  rw [show (hi + 1 - lo).toNat = (m - 1 + 1 - lo).toNat + (hi + 1 - m).toNat by omega,
    List.range_add, List.map_append, List.map_map]
  congr 1
  apply List.map_congr_left
  intro i _
  simp only [Function.comp_apply]
  push_cast
  omega

theorem offsetList_single (m : ℤ) : offsetList m m = [m] := by
  unfold offsetList
  rw [show (m + 1 - m) = 1 by omega]
  rw [show List.range (Int.toNat 1) = [0] from rfl]
  simp

theorem map_getD_range (l : List Char) (d : Char) :
    (List.range l.length).map (fun i => l.getD i d) = l := by
  apply List.ext_getElem
  · simp
  · intro i h1 h2
    simp [List.getD_eq_getElem?_getD, List.getElem?_eq_getElem h2]


theorem fboStep_preserves_below (r : List Char) (mo : ℕ) (er : ℚ) (b : Option OverlapResult)
    (o : ℤ) (ho : o < 0) (hn : 1 ≤ r.length) (hb : Pbelow r.length b) :
    Pbelow r.length (fboStep r r mo er b o) := by
  intro x hx
  simp only [fboStep] at hx
  split at hx
  · split at hx
    · split at hx
      · injection hx with hx'
        subst hx'
        simp only
        omega
      · split at hx
        · injection hx with hx'
          subst hx'
          simp only
          omega
        · exact hb x hx
    · exact hb x hx
  · exact hb x hx

theorem fboStep_zero (r : List Char) (mo : ℕ) (er : ℚ) (b : Option OverlapResult)
    (hmo : mo ≤ r.length) (her : 0 ≤ er) (hb : Pbelow r.length b) :
    fboStep r r mo er b 0 =
      some { offset := 0, overlap_len := r.length, mismatches := 0 } := by
  have he1 : (min ((r.length : ℤ)) (0 + (r.length : ℤ))).toNat = r.length := by omega
  have hs1 : ((max (0 : ℤ) 0).toNat) = 0 := by omega
  have hs2 : ((max (-(0 : ℤ)) 0).toNat) = 0 := by omega
  simp only [fboStep, he1, hs1, hs2, Nat.sub_zero, Nat.zero_add, List.drop_zero,
    List.take_length, countMismatches_self]
  rw [if_pos ⟨hmo, le_refl _, le_refl _⟩]
  rw [if_pos (by simpa using mul_nonneg (Nat.cast_nonneg r.length) her)]
  rcases hbb : b with _ | x
  · rfl
  · dsimp only
    rw [if_pos (Or.inl (hb x hbb))]

theorem fboStep_pos (r : List Char) (mo : ℕ) (er : ℚ) (o : ℤ) (ho : 1 ≤ o)
    (hn : 1 ≤ r.length) :
    fboStep r r mo er (some { offset := 0, overlap_len := r.length, mismatches := 0 }) o =
      some { offset := 0, overlap_len := r.length, mismatches := 0 } := by
  have he1 : (min ((r.length : ℤ)) (o + (r.length : ℤ))).toNat = r.length := by omega
  have hs1 : (max o 0).toNat = o.toNat := by omega
  simp only [fboStep, he1, hs1]
  split
  · split
    · rw [if_neg (by omega)]
    · rfl
  · rfl

theorem find_best_overlap_self (r : List Char) (mo : ℕ) (er : ℚ)
    (hmo : mo ≤ r.length) (her : 0 ≤ er) :
    find_best_overlap r r mo er =
      { offset := 0, overlap_len := r.length, mismatches := 0 } := by
  simp only [find_best_overlap]
  have hlo : max (-(((r.length : ℤ)) - (mo : ℤ))) (-((r.length : ℤ) / 2)) ≤ 0 := by omega
  have hhi : (0 : ℤ) ≤ (r.length : ℤ) - (mo : ℤ) := by omega
  have hfold : (offsetList (max (-(((r.length : ℤ)) - (mo : ℤ))) (-((r.length : ℤ) / 2)))
      ((r.length : ℤ) - (mo : ℤ))).foldl (fboStep r r mo er) none =
      some { offset := 0, overlap_len := r.length, mismatches := 0 } := by
    rw [offsetList_split _ 0 _ hlo (by omega),
      offsetList_split 0 1 ((r.length : ℤ) - (mo : ℤ)) (by omega) (by omega),
      show (1 : ℤ) - 1 = 0 by norm_num, offsetList_single 0,
      List.foldl_append, List.foldl_append, List.foldl_cons, List.foldl_nil]
    have hA : Pbelow r.length ((offsetList
        (max (-(((r.length : ℤ)) - (mo : ℤ))) (-((r.length : ℤ) / 2))) (0 - 1)).foldl
        (fboStep r r mo er) none) := by
      generalize hL : offsetList (max (-(((r.length : ℤ)) - (mo : ℤ)))
        (-((r.length : ℤ) / 2))) (0 - 1) = L
      have hmem : ∀ o ∈ L, o < 0 ∧ 1 ≤ r.length := by
        intro o hoL
        rw [← hL] at hoL
        have h2 := mem_offsetList hoL
        have h3 : -((r.length : ℤ) / 2) ≤ o := le_trans (le_max_right _ _) h2.1
        omega
      clear hL
      induction L using List.reverseRecOn with
      | nil => intro x hx; cases hx
      | append_singleton L o ih =>
        rw [List.foldl_append]
        exact fboStep_preserves_below r mo er _ o (hmem o (by simp)).1 (hmem o (by simp)).2
          (ih (fun o' ho' => hmem o' (by simp [ho'])))
    rw [fboStep_zero r mo er _ hmo her hA]
    generalize hL : offsetList 1 ((r.length : ℤ) - (mo : ℤ)) = B
    have hmem : ∀ o ∈ B, 1 ≤ o ∧ o ≤ (r.length : ℤ) - (mo : ℤ) := by
      intro o hoB
      rw [← hL] at hoB
      exact mem_offsetList hoB
    clear hL
    induction B with
    | nil => rfl
    | cons o t ih =>
      rw [List.foldl_cons, fboStep_pos r mo er o (hmem o (List.mem_cons_self o t)).1
        (by have := hmem o (List.mem_cons_self o t); omega)]
      exact ih (fun o' ho' => hmem o' (List.mem_cons_of_mem _ ho'))
  rw [hfold]


theorem end_joining_fastq_overlap (a b : FastqRecord) (L : ℕ)
    (h1 : a.is_empty = false) (h2 : b.is_empty = false) :
    end_joining (EndJoiningInput.Fastq a b) (EndJoiningStrategy.Overlap L) =
      Except.ok (join_with_overlap a.seq (some a.qual) b.seq (some b.qual)
        (from_simple_overlap a.seq.length b.seq.length L)) := by
  simp only [end_joining, EndJoiningInput.validate_records, h1, h2, Bool.or_self,
    Bool.false_eq_true, if_false]

theorem end_joining_fastq_unknown (a b : FastqRecord)
    (h1 : a.is_empty = false) (h2 : b.is_empty = false) :
    end_joining (EndJoiningInput.Fastq a b) EndJoiningStrategy.UnknownOverlap =
      Except.ok (join_with_overlap a.seq (some a.qual) b.seq (some b.qual)
        (find_best_overlap a.seq b.seq MIN_OVERLAP ERROR_RATE_FOR_ENDJOINING)) := by
  simp only [end_joining, EndJoiningInput.validate_records, h1, h2, Bool.or_self,
    Bool.false_eq_true, if_false]

theorem join_self_full (r : List Char) (q1 q2 : Option (List ℕ)) :
    (join_with_overlap r q1 r q2
      { offset := 0, overlap_len := r.length, mismatches := 0 }).seq = r := by
  simp only [join_with_overlap, lt_self_iff_false, if_false, Int.toNat_zero, List.take_zero,
    Nat.zero_add, eq_self_iff_true, if_true, map_getD_range, List.nil_append, List.append_nil]

theorem join_overlap_zero_seq (r1 r2 : List Char) (q1 q2 : Option (List ℕ)) :
    (join_with_overlap r1 q1 r2 q2 (from_simple_overlap r1.length r2.length 0)).seq =
      r1 ++ r2 := by
  have h0 : min (min 0 r1.length) r2.length = 0 := by omega
  have hc : ¬((r1.length : ℤ) < 0) := not_lt.mpr (Int.natCast_nonneg _)
  simp only [join_with_overlap, from_simple_overlap, h0, Nat.sub_zero, hc, if_false,
    Int.toNat_natCast, List.take_length, List.range_zero, List.map_nil, Nat.add_zero,
    List.append_nil, lt_self_iff_false]
  by_cases h2 : 0 < r2.length
  · rw [if_pos h2]
    simp
  · rw [if_neg h2]
    have hr2 : r2 = [] := List.length_eq_zero.mp (by omega)
    simp [hr2]



/-- **Claim C6 (amended).** For every fastq record `r` whose sequence length is at
least `MIN_OVERLAP`, `end_joining` on two copies of `r` with the `UnknownOverlap`
strategy discovers the full-length overlap (offset `0`, overlap length `|r|`,
no mismatches) and returns `r`'s sequence unchanged. -/
theorem end_joining_self_unknown_overlap (r : FastqRecord)
    (h : MIN_OVERLAP ≤ r.seq.length) :
    find_best_overlap r.seq r.seq MIN_OVERLAP ERROR_RATE_FOR_ENDJOINING =
      { offset := 0, overlap_len := r.seq.length, mismatches := 0 } ∧
    ∃ res, end_joining (EndJoiningInput.Fastq r r) EndJoiningStrategy.UnknownOverlap =
      Except.ok res ∧ res.seq = r.seq := by
  have hfbo := find_best_overlap_self r.seq MIN_OVERLAP ERROR_RATE_FOR_ENDJOINING
    h (by norm_num [ERROR_RATE_FOR_ENDJOINING])
  have hs : r.seq ≠ [] := by
    intro he
    rw [he] at h
    simp [MIN_OVERLAP] at h
  have hne : r.is_empty = false := by
    simp [FastqRecord.is_empty, hs]
  refine ⟨hfbo, _, end_joining_fastq_unknown r r hne hne, ?_⟩
  rw [hfbo]
  exact join_self_full r.seq _ _

theorem end_joining_self_unknown_overlap_witness :
    MIN_OVERLAP ≤ c6w_record.seq.length ∧
    (find_best_overlap c6w_record.seq c6w_record.seq MIN_OVERLAP ERROR_RATE_FOR_ENDJOINING =
      { offset := 0, overlap_len := c6w_record.seq.length, mismatches := 0 } ∧
    ∃ res, end_joining (EndJoiningInput.Fastq c6w_record c6w_record)
        EndJoiningStrategy.UnknownOverlap = Except.ok res ∧ res.seq = c6w_record.seq) :=
  ⟨by decide, end_joining_self_unknown_overlap c6w_record (by decide)⟩

/-- **Claim C6, counterexample.** For a record shorter than `MIN_OVERLAP` the
offset range of `find_best_overlap` is empty: joining two copies of `"ACGT"`
concatenates them instead of returning the record unchanged, and the discovered
overlap is `0`, not the record length. -/
theorem end_joining_self_counterexample :
    (end_joining (EndJoiningInput.Fastq c6_record c6_record)
        EndJoiningStrategy.UnknownOverlap).map EndJoiningResult.seq =
      Except.ok "ACGTACGT".data ∧
    "ACGTACGT".data ≠ c6_record.seq ∧
    find_best_overlap c6_record.seq c6_record.seq MIN_OVERLAP ERROR_RATE_FOR_ENDJOINING ≠
      { offset := 0, overlap_len := c6_record.seq.length, mismatches := 0 } := by
  decide

/-- **Claim C7.** End joining with a known overlap: with overlap `0` the result
is the concatenation of the two reads with no bases lost, and whenever
`L ≤ |R1|`, `L ≤ |R2|` and the length-`L` suffix of `R1` equals the length-`L`
prefix of `R2`, the joined sequence has length `|R1| + |R2| - L`. -/
theorem join_known_overlap_spec :
    (∀ (r1 r2 : List Char) (q1 q2 : Option (List ℕ)),
      (join_with_overlap r1 q1 r2 q2 (from_simple_overlap r1.length r2.length 0)).seq =
        r1 ++ r2) ∧
    (∀ (r1 r2 : List Char) (q1 q2 : Option (List ℕ)) (L : ℕ),
      L ≤ r1.length → L ≤ r2.length →
      r1.drop (r1.length - L) = r2.take L →
      (join_with_overlap r1 q1 r2 q2 (from_simple_overlap r1.length r2.length L)).seq.length =
        r1.length + r2.length - L) := by
  refine ⟨join_overlap_zero_seq, ?_⟩
  intro r1 r2 q1 q2 L h1 h2 _
  rw [join_simple_overlap_len r1 r2 q1 q2 L]
  omega

theorem join_known_overlap_spec_witness :
    (join_with_overlap "ACGTACGTTACGT".data none "TACGTTACGTCGA".data none
        (from_simple_overlap "ACGTACGTTACGT".data.length "TACGTTACGTCGA".data.length
          10)).seq.length =
      "ACGTACGTTACGT".data.length + "TACGTTACGTCGA".data.length - 10 :=
  join_known_overlap_spec.2 "ACGTACGTTACGT".data "TACGTTACGTCGA".data none none 10
    (by decide) (by decide) (by decide)

theorem foldl_addWeight_const (w : ℕ → ℚ) (b : Char) (l : List (Char × ℕ))
    (hl : ∀ p ∈ l, p.1 = b) (x : ℚ) :
    l.foldl (fun acc p => addWeight acc p.1 (w (p.2 - 33))) [(b, x)] =
      [(b, x + (l.map (fun p => w (p.2 - 33))).sum)] := by
  induction l generalizing x with
  | nil => simp
  | cons p t ih =>
    have hp : p.1 = b := hl p (List.mem_cons_self p t)
    have hstep : addWeight [(b, x)] p.1 (w (p.2 - 33)) = [(b, x + w (p.2 - 33))] := by
      simp [addWeight, hp]
    rw [List.foldl_cons, hstep, ih (fun q hq => hl q (List.mem_cons_of_mem _ hq))]
    simp [add_assoc]

theorem consensus_base_column_agree (w : ℕ → ℚ) (hw : ∀ q, 0 < w q)
    (bases : List Char) (quals : List ℕ) (b : Char)
    (hn : 1 ≤ bases.length) (hlen : bases.length ≤ quals.length)
    (hb : ∀ c ∈ bases, c = b) :
    consensus_base_column_with_quality w bases quals = some (b, 93) := by
  have hzlen : (bases.zip quals).length = bases.length := by
    rw [List.length_zip]
    omega
  rcases hzl : bases.zip quals with _ | ⟨p0, t⟩
  · rw [hzl] at hzlen
    simp at hzlen
    omega
  · have hz : ∀ p ∈ bases.zip quals, p.1 = b := by
      intro p hp
      exact hb p.1 (List.of_mem_zip hp).1
    have hp0 : p0.1 = b := hz p0 (by rw [hzl]; exact List.mem_cons_self _ _)
    have hzt : ∀ p ∈ t, p.1 = b := fun p hp => hz p (by rw [hzl]; exact List.mem_cons_of_mem _ hp)
    have hbw : (bases.zip quals).foldl (fun acc p => addWeight acc p.1 (w (p.2 - 33))) [] =
        [(b, w (p0.2 - 33) + (t.map (fun p => w (p.2 - 33))).sum)] := by
      rw [hzl, List.foldl_cons]
      have h0 : addWeight [] p0.1 (w (p0.2 - 33)) = [(b, w (p0.2 - 33))] := by
        simp [addWeight, hp0]
      rw [h0]
      exact foldl_addWeight_const w b t hzt _
    set W := w (p0.2 - 33) + (t.map (fun p => w (p.2 - 33))).sum with hW
    have hWpos : 0 < W := by
      have h1 : 0 < w (p0.2 - 33) := hw _
      have h2 : 0 ≤ (t.map (fun p => w (p.2 - 33))).sum :=
        List.sum_nonneg (by
          intro q hq
          obtain ⟨p, _, rfl⟩ := List.mem_map.mp hq
          exact le_of_lt (hw _))
      rw [hW]
      linarith
    simp only [consensus_base_column_with_quality, hbw]
    have hmax : (([(b, W)]).map Prod.snd).max? = some W := by rfl
    rw [hmax]
    dsimp only
    have hfil : ([(b, W)]).filter (fun p => |p.2 - W| < 1 / 10 ^ 6) = [(b, W)] := by
      rw [List.filter_cons_of_pos]
      · rfl
      · simp only [decide_eq_true_eq]
        rw [sub_self, abs_zero]
        norm_num
    rw [hfil]
    simp only [List.map_cons, List.map_nil, List.length_cons, List.length_nil]
    rw [if_pos trivial]
    have hsum : ([W] : List ℚ).sum = W := by simp
    rw [hsum, if_pos hWpos, div_self (ne_of_gt hWpos)]
    have hpe : max (1 - 1) ((1 : ℚ) / 10 ^ 10) = 1 / 10 ^ 10 := by norm_num
    rw [hpe]
    have hrnl : roundNegLog (1 / 10 ^ 10) = 60 := by
      rw [roundNegLog, if_pos (by norm_num)]
    rw [hrnl]
    rfl


theorem getD_map_range {α : Type} (n i : ℕ) (g : ℕ → α) (d : α) (h : i < n) :
    ((List.range n).map g).getD i d = g i := by
  rw [List.getD_eq_getElem _ _ (by simpa using h)]
  simp

/-- **Claim C8.** For a Weighted consensus over at least two equal-length fastq
records (with quality rows at least as long as the reads), every column in
which all input bases agree yields that base as the consensus base and the
maximum quality byte `60 + 33 = 93`, regardless of the quality characters. -/
theorem consensus_weighted_agree (w : ℕ → ℚ) (hw : ∀ q, 0 < w q)
    (rs : List FastqRecord) (L : ℕ)
    (hn : 2 ≤ rs.length)
    (hseq : ∀ r ∈ rs, r.seq.length = L)
    (hq : ∀ r ∈ rs, r.qual.length = L)
    (i : ℕ) (hi : i < L) (b : Char)
    (hb : ∀ r ∈ rs, r.seq.getD i ' ' = b) :
    ∃ res, consensus (ConsensusStrategy.Weighted w) (ConsensusInput.Fastq rs) =
        ConsensusOutcome.ok res ∧
      res.seq.getD i 'N' = b ∧ (res.qual.getD []).getD i 0 = 93 := by
  rcases rs with _ | ⟨r0, rest⟩
  · simp at hn
  have hL0 : r0.seq.length = L := hseq r0 (List.mem_cons_self _ _)
  simp only [consensus, List.map_cons, List.headD_cons]
  simp only [hL0]
  rw [if_neg (by simp only [List.length_cons, List.length_map]; simp at hn; omega)]
  have hall : ((r0.seq :: (rest.map (fun r => r.seq))).all (fun r => r.length = L)) = true := by
    rw [List.all_eq_true]
    intro x hx
    rcases List.mem_cons.mp hx with h | h
    · subst h
      simp [hL0]
    · obtain ⟨r, hr, rfl⟩ := List.mem_map.mp h
      simp [hseq r (List.mem_cons_of_mem _ hr)]
  rw [if_neg (not_not_intro hall)]
  have hallq : ((r0.qual :: (rest.map (fun r => r.qual))).all (fun q => L ≤ q.length)) = true := by
    rw [List.all_eq_true]
    intro x hx
    rcases List.mem_cons.mp hx with h | h
    · subst h
      simp [hq r0 (List.mem_cons_self _ _)]
    · obtain ⟨r, hr, rfl⟩ := List.mem_map.mp h
      simp [hq r (List.mem_cons_of_mem _ hr)]
  rw [if_neg (not_not_intro hallq)]
  refine ⟨_, rfl, ?_, ?_⟩
  · rw [List.map_map]
    rw [getD_map_range L i _ 'N' hi]
    simp only [Function.comp_apply]
    rw [consensus_base_column_agree w hw _ _ b (by simp) (by simp)
      (by
        intro c hc
        rcases List.mem_cons.mp hc with h | h
        · subst h
          exact hb r0 (List.mem_cons_self _ _)
        · obtain ⟨x, hx, rfl⟩ := List.mem_map.mp h
          obtain ⟨r, hr, rfl⟩ := List.mem_map.mp hx
          exact hb r (List.mem_cons_of_mem _ hr))]
    rfl
  · simp only [Option.getD_some]
    rw [List.map_map]
    rw [getD_map_range L i _ 0 hi]
    simp only [Function.comp_apply]
    rw [consensus_base_column_agree w hw _ _ b (by simp) (by simp)
      (by
        intro c hc
        rcases List.mem_cons.mp hc with h | h
        · subst h
          exact hb r0 (List.mem_cons_self _ _)
        · obtain ⟨x, hx, rfl⟩ := List.mem_map.mp h
          obtain ⟨r, hr, rfl⟩ := List.mem_map.mp hx
          exact hb r (List.mem_cons_of_mem _ hr))]
    rfl


theorem consensus_weighted_agree_witness :
    ∃ res, consensus (ConsensusStrategy.Weighted (fun _ => 1 / 2))
        (ConsensusInput.Fastq
          [{ id := "a", desc := none, seq := "AC".data, qual := [73, 73] },
           { id := "b", desc := none, seq := "AC".data, qual := [73, 73] }]) =
        ConsensusOutcome.ok res ∧
      res.seq.getD 0 'N' = 'A' ∧ (res.qual.getD []).getD 0 0 = 93 :=
  consensus_weighted_agree (fun _ => 1 / 2) (fun _ => by norm_num)
    [{ id := "a", desc := none, seq := "AC".data, qual := [73, 73] },
     { id := "b", desc := none, seq := "AC".data, qual := [73, 73] }] 2
    (by decide) (by decide) (by decide) 0 (by decide) 'A' (by decide)

theorem r1_matching_error_ne (r1 : FastqRecord) (fm : ForwardMatching) (e : TcsError)
    (h : r1_matching r1 fm = Except.error e) (n a b : ℕ) :
    e ≠ TcsError.InvalidReadLength n a b := by
  intro he
  subst he
  simp only [r1_matching] at h
  split at h
  · split at h
    · split at h
      · exact absurd h (by simp)
      · simp at h
    · exact absurd h (by simp)
  · simp at h

theorem r2_matching_error_ne (r2 : FastqRecord) (cm : CDNAMatching) (e : TcsError)
    (h : r2_matching r2 cm = Except.error e) (n a b : ℕ) :
    e ≠ TcsError.InvalidReadLength n a b := by
  intro he
  subst he
  simp only [r2_matching] at h
  split at h
  · split at h
    · split at h
      · split at h
        · split at h
          · exact absurd h (by simp)
          · simp at h
        · exact absurd h (by simp)
      · simp at h
    · simp at h
  · simp at h

theorem filterRegionsLoop_error_ne (r1t r2t : FastqRecord) :
    ∀ (l : List ValidatedRegionParams) (acc : List (String × FilterPairInvalidReason))
      (e : TcsError), filterRegionsLoop r1t r2t acc l = Except.error e →
      ∀ n a b : ℕ, e ≠ TcsError.InvalidReadLength n a b := by
  intro l
  induction l with
  | nil =>
    intro acc e h
    simp [filterRegionsLoop] at h
  | cons rp rest ih =>
    intro acc e h n a b
    simp only [filterRegionsLoop] at h
    split at h
    · rename_i e1 h1
      injection h with h2
      subst h2
      exact r1_matching_error_ne r1t rp.forward_matching _ h1 n a b
    · rename_i r1m h1
      split at h
      · rename_i e2 h2
        injection h with h3
        subst h3
        exact r2_matching_error_ne r2t rp.cdna_matching _ h2 n a b
      · rename_i r2pair h2
        split at h
        · exact absurd h (by simp)
        · exact ih _ _ h n a b
        · exact ih _ _ h n a b
        · exact ih _ _ h n a b

theorem consolidate_no_match_error_ne (m : List (String × FilterPairInvalidReason))
    (e : TcsError) (h : consolidate_no_match m = Except.error e) (n a b : ℕ) :
    e ≠ TcsError.InvalidReadLength n a b := by
  intro he
  subst he
  simp only [consolidate_no_match] at h
  split at h
  · simp at h
  · split at h
    · exact absurd h (by simp)
    · split at h
      · exact absurd h (by simp)
      · split at h
        · exact absurd h (by simp)
        · split at h
          · exact absurd h (by simp)
          · split at h
            · exact absurd h (by simp)
            · exact absurd h (by simp)

theorem filterAfterClip_ne_invalid_read_length (r1t r2t : FastqRecord)
    (params : ValidatedParams) (n a b : ℕ) :
    filterAfterClip r1t r2t params ≠
      FilterOutcome.fatal (TcsError.InvalidReadLength n a b) := by
  intro h
  simp only [filterAfterClip] at h
  split at h
  · exact absurd h (by simp)
  · exact absurd h (by simp)
  · split at h
    · rename_i e1 h1
      injection h with h2
      exact filterRegionsLoop_error_ne r1t r2t _ _ _ h1 n a b h2
    · exact absurd h (by simp)
    · split at h
      · rename_i e2 h2
        injection h with h3
        exact consolidate_no_match_error_ne _ _ h2 n a b h3
      · exact absurd h (by simp)


/-- **Claim C9.** For a structurally valid read pair (paired-record validation
passes) and a parameter set whose first region has `platform_format ≥ 1`,
`filter_r1_r2_pairs` returns the fatal `InvalidReadLength` error exactly when
either read is shorter than `platform_format`; otherwise both reads are
clipped by `get_range` to exactly `platform_format - 1` bases and the rest of
the pipeline (general quality filter and per-region primer matching) is
applied to the clipped reads. -/
theorem filter_r1_r2_pairs_length_spec (r1 r2 : FastqRecord) (params : ValidatedParams)
    (rp : ValidatedRegionParams) (rest : List ValidatedRegionParams)
    (hpp : params.primer_pairs = rp :: rest) (hpf : 1 ≤ rp.platform_format)
    (hv : validate_paired_fastq_record r1 r2 = Except.ok ()) :
    (filter_r1_r2_pairs r1 r2 params =
        FilterOutcome.fatal (TcsError.InvalidReadLength rp.platform_format
          r1.seq.length r2.seq.length) ↔
      r1.seq.length < rp.platform_format ∨ r2.seq.length < rp.platform_format) ∧
    (rp.platform_format ≤ r1.seq.length → rp.platform_format ≤ r2.seq.length →
      ∃ r1t r2t,
        get_range r1 0 (rp.platform_format - 1) = Except.ok r1t ∧
        get_range r2 0 (rp.platform_format - 1) = Except.ok r2t ∧
        r1t.seq.length = rp.platform_format - 1 ∧
        r2t.seq.length = rp.platform_format - 1 ∧
        filter_r1_r2_pairs r1 r2 params = filterAfterClip r1t r2t params) := by
  simp only [filter_r1_r2_pairs, hv, hpp]
  by_cases hlen : rp.platform_format ≤ r1.seq.length ∧ rp.platform_format ≤ r2.seq.length
  · rw [if_pos hlen, if_neg (by omega)]
    have hg1 : get_range r1 0 (rp.platform_format - 1) =
        Except.ok { id := r1.id, desc := r1.desc,
                    seq := (r1.seq.take (rp.platform_format - 1)).drop 0,
                    qual := (r1.qual.take (rp.platform_format - 1)).drop 0 } := by
      simp only [get_range]
      rw [if_neg (by omega)]
    have hg2 : get_range r2 0 (rp.platform_format - 1) =
        Except.ok { id := r2.id, desc := r2.desc,
                    seq := (r2.seq.take (rp.platform_format - 1)).drop 0,
                    qual := (r2.qual.take (rp.platform_format - 1)).drop 0 } := by
      simp only [get_range]
      rw [if_neg (by omega)]
    rw [hg1, hg2]
    constructor
    · constructor
      · intro h
        exact absurd h (filterAfterClip_ne_invalid_read_length _ _ params _ _ _)
      · intro h
        omega
    · intro h1 h2
      refine ⟨_, _, rfl, rfl, ?_, ?_, rfl⟩
      · simp only [List.drop_zero, List.length_take]
        omega
      · simp only [List.drop_zero, List.length_take]
        omega
  · rw [if_neg hlen]
    constructor
    · constructor
      · intro _
        omega
      · intro _
        rfl
    · intro h1 h2
      exact absurd ⟨h1, h2⟩ hlen





theorem filter_r1_r2_pairs_length_spec_witness :
    (filter_r1_r2_pairs c9w_r1 c9w_r2 { primer_pairs := [c9w_rp] } =
        FilterOutcome.fatal (TcsError.InvalidReadLength c9w_rp.platform_format
          c9w_r1.seq.length c9w_r2.seq.length) ↔
      c9w_r1.seq.length < c9w_rp.platform_format ∨
        c9w_r2.seq.length < c9w_rp.platform_format) ∧
    (c9w_rp.platform_format ≤ c9w_r1.seq.length →
      c9w_rp.platform_format ≤ c9w_r2.seq.length →
      ∃ r1t r2t,
        get_range c9w_r1 0 (c9w_rp.platform_format - 1) = Except.ok r1t ∧
        get_range c9w_r2 0 (c9w_rp.platform_format - 1) = Except.ok r2t ∧
        r1t.seq.length = c9w_rp.platform_format - 1 ∧
        r2t.seq.length = c9w_rp.platform_format - 1 ∧
        filter_r1_r2_pairs c9w_r1 c9w_r2 { primer_pairs := [c9w_rp] } =
          filterAfterClip r1t r2t { primer_pairs := [c9w_rp] }) :=
  filter_r1_r2_pairs_length_spec c9w_r1 c9w_r2 { primer_pairs := [c9w_rp] }
    c9w_rp [] rfl (by decide) (by decide)

theorem consensus_qual_iff_weighted (st : ConsensusStrategy) (inp : ConsensusInput)
    (res : ConsensusResult) (h : consensus st inp = ConsensusOutcome.ok res) :
    res.qual.isSome = st.isWeighted := by
  cases st with
  | Weighted w =>
    cases inp with
    | Fastq rs =>
      simp only [consensus] at h
      split at h
      · exact absurd h (by simp)
      · split at h
        · exact absurd h (by simp)
        · split at h
          · exact absurd h (by simp)
          · injection h with h2
            rw [← h2]
            rfl
    | Fasta rs =>
      simp only [consensus] at h
      split at h
      · exact absurd h (by simp)
      · split at h
        · exact absurd h (by simp)
        · split at h
          · injection h with h2
            rw [← h2]
            rfl
          · exact absurd h (by simp)
  | Supermajority c =>
    cases inp with
    | Fastq rs =>
      simp only [consensus] at h
      split at h
      · exact absurd h (by simp)
      · split at h
        · exact absurd h (by simp)
        · injection h with h2
          rw [← h2]
          rfl
    | Fasta rs =>
      simp only [consensus] at h
      split at h
      · exact absurd h (by simp)
      · split at h
        · exact absurd h (by simp)
        · injection h with h2
          rw [← h2]
          rfl
  | SimpleMajority =>
    cases inp with
    | Fastq rs =>
      simp only [consensus] at h
      split at h
      · exact absurd h (by simp)
      · split at h
        · exact absurd h (by simp)
        · injection h with h2
          rw [← h2]
          rfl
    | Fasta rs =>
      simp only [consensus] at h
      split at h
      · exact absurd h (by simp)
      · split at h
        · exact absurd h (by simp)
        · injection h with h2
          rw [← h2]
          rfl

/-- **Claim C10 (amended).** The consensus quality is `Some` iff the strategy
is `Weighted`; and `build_from_filtered_pairs` panics (it unwraps the missing
quality) whenever the strategy is not `Weighted` and some UMI family that
survives the cutoff has both of its per-family consensus calls succeed. -/
theorem build_from_filtered_pairs_unwrap_panic :
    (∀ (st : ConsensusStrategy) (inp : ConsensusInput) (res : ConsensusResult),
      consensus st inp = ConsensusOutcome.ok res → res.qual.isSome = st.isWeighted) ∧
    (∀ (pairs : List FilteredPair) (st : ConsensusStrategy) (ec : ℚ),
      st.isWeighted = false →
      ∀ (fams : List UMIFamily) (summ : UMISummary),
        find_umi_family_by_error_cutoff
            (pairs.map (fun p => p.umi.umi_information_block)) ec =
          Except.ok (fams, summ) →
        ∀ fam ∈ fams,
          ∀ (fps : List (FastqRecord × FastqRecord)),
            lookupAssoc (groupPairs pairs) fam.umi_information_block = some fps →
            ∀ (r1c r2c : ConsensusResult),
              consensus st (ConsensusInput.Fastq (fps.map Prod.fst)) =
                ConsensusOutcome.ok r1c →
              consensus st (ConsensusInput.Fastq (fps.map Prod.snd)) =
                ConsensusOutcome.ok r2c →
              build_from_filtered_pairs pairs st ec = BuildResult.panicked) := by
  refine ⟨consensus_qual_iff_weighted, ?_⟩
  intro pairs st ec hsw fams summ hf fam hmem fps hlook r1c r2c h1c h2c
  have hq1 : r1c.qual = none := by
    have hiff := consensus_qual_iff_weighted st _ r1c h1c
    rw [hsw] at hiff
    cases hr : r1c.qual with
    | none => rfl
    | some q =>
      rw [hr] at hiff
      simp at hiff
  have hq2 : r2c.qual = none := by
    have hiff := consensus_qual_iff_weighted st _ r2c h2c
    rw [hsw] at hiff
    cases hr : r2c.qual with
    | none => rfl
    | some q =>
      rw [hr] at hiff
      simp at hiff
  have hpf : processFamily st (groupPairs pairs) fam = FamilyOutcome.panicked := by
    simp only [processFamily, hlook, h1c, h2c, hq1]
  have hcond : (fams.map (processFamily st (groupPairs pairs))).any
      (fun o => o.isPanicked) = true := by
    rw [List.any_eq_true]
    refine ⟨processFamily st (groupPairs pairs) fam, List.mem_map_of_mem _ hmem, ?_⟩
    rw [hpf]
    rfl
  simp only [build_from_filtered_pairs, hf]
  rw [if_pos hcond]











theorem c10_find_eq :
    find_umi_family_by_error_cutoff c10_blocks (1 / 50) =
      Except.ok ([UMIFamily.mk ['A'] 6], c10_summary) := by
  have hm : ((kLargestSum ((countsList c10_blocks).map Prod.snd) 5 : ℕ) : ℚ) / 5 =
      ((10 : ℤ) : ℚ) / ((5 : ℕ) : ℚ) := by
    norm_num [show kLargestSum ((countsList c10_blocks).map Prod.snd) 5 = 10 from rfl]
  simp only [find_umi_family_by_error_cutoff]
  rw [if_neg (by decide), if_neg (by decide), hm, rustRound_div 10 5 (by norm_num)]
  rw [show (rustRoundDiv 10 5).toNat = 2 from rfl]
  rw [umi_cut_off_small 2 (some (1 / 50)) (by norm_num)]
  rfl

theorem build_from_filtered_pairs_unwrap_panic_witness :
    build_from_filtered_pairs c10_pairs ConsensusStrategy.SimpleMajority (1 / 50) =
      BuildResult.panicked :=
  build_from_filtered_pairs_unwrap_panic.2 c10_pairs ConsensusStrategy.SimpleMajority
    (1 / 50) rfl [UMIFamily.mk ['A'] 6] c10_summary c10_find_eq
    (UMIFamily.mk ['A'] 6) (by decide)
    (List.replicate 6 (c10_rA1, c10_rA2)) rfl
    { seq := "AC".data, qual := none } { seq := "GT".data, qual := none } rfl rfl

/-- **Claim C10, counterexample.** A call with a non-`Weighted` strategy and a
surviving UMI family that does not panic: the family's reads have unequal
lengths, the per-family consensus fails with `InvalidSequenceLength`, and the
error is collected instead of unwrapped. -/
theorem build_from_filtered_pairs_no_panic_counterexample :
    ConsensusStrategy.isWeighted ConsensusStrategy.SimpleMajority = false ∧
    (∃ fams summ,
      find_umi_family_by_error_cutoff
          (c10bad_pairs.map (fun p => p.umi.umi_information_block)) (1 / 50) =
        Except.ok (fams, summ) ∧ fams ≠ []) ∧
    build_from_filtered_pairs c10bad_pairs ConsensusStrategy.SimpleMajority (1 / 50) ≠
      BuildResult.panicked := by
  have hmap : c10bad_pairs.map (fun p => p.umi.umi_information_block) = c10_blocks := rfl
  refine ⟨rfl, ⟨[UMIFamily.mk ['A'] 6], c10_summary, by rw [hmap]; exact c10_find_eq,
    by decide⟩, ?_⟩
  have hb : build_from_filtered_pairs c10bad_pairs ConsensusStrategy.SimpleMajority
      (1 / 50) = BuildResult.ok
        { tcs_consensus := [],
          errors := ["All sequences must be the same length"],
          umi_summary := c10_summary } := by
    simp only [build_from_filtered_pairs, hmap, c10_find_eq]
    rfl
  rw [hb]
  simp

end VirustTcs
